import Mathlib

/-!
Verification development for the SML-APP music-library synchronization engine.

The definitions below are a shallow embedding of `src/services/cloud-api.ts`,
`src/services/local-api.ts`, `src/services/local-file-storage.ts` and the local
SQLite database service.  External effects (Supabase queries, Capacitor
filesystem calls, network fetches) are modelled by explicit "world" records
that fix the outcome of each effectful call; stores are explicit state records
threaded through the functions.  Progress callbacks are modelled by the list of
values the callback receives, in call order.
-/

namespace SML

/-- Models JavaScript `Math.round((k / n) * 100)` on natural numbers:
`Math.round x = ⌊x + 1/2⌋` for non-negative `x`, so
`Math.round (100 * k / n) = ⌊(200 * k + n) / (2 * n)⌋`. -/
def jsRound100 (k n : Nat) : Nat := (200 * k + n) / (2 * n)

/-- The sequence of values `reportProgress` hands to `onProgress` over a run of
`n` counted steps: `Math.round (100 * currentStep / totalSteps)` for
`currentStep = 1, …, n`. -/
def progressSeq (n : Nat) : List Nat :=
  (List.range n).map (fun i => jsRound100 (i + 1) n)

/-- A `Work` as used by the sync engine (`src/types`): the asset reference
`fileUrl` is a local path on the push side and a remote URL on the pull side. -/
structure Work where
  id : String
  composerId : String
  title : String
  edition : String
  year : String
  fileUrl : String
deriving DecidableEq, Repr

/-- A `Recording` (`src/types`). -/
structure Recording where
  id : String
  composerId : String
  title : String
  performer : String
  duration : String
  year : String
  fileUrl : String
deriving DecidableEq, Repr

/-- A fully hydrated `Composer` with its owned collections. -/
structure Composer where
  id : String
  name : String
  period : String
  image : String
  works : List Work
  recordings : List Recording
deriving DecidableEq, Repr

/-- `getMimeType` from `src/services/cloud-api.ts`: the fixed extension → MIME
table, defaulting to `application/octet-stream`. -/
def getMimeType (ext : String) : String :=
  if ext = "pdf" then "application/pdf"
  else if ext = "jpg" then "image/jpeg"
  else if ext = "jpeg" then "image/jpeg"
  else if ext = "png" then "image/png"
  else if ext = "webp" then "image/webp"
  else if ext = "mp3" then "audio/mpeg"
  else if ext = "wav" then "audio/wav"
  else if ext = "m4a" then "audio/mp4"
  else if ext = "ogg" then "audio/ogg"
  else "application/octet-stream"

/-- Character-level model of JavaScript `s.split(sep)` for a one-character
separator: always returns a non-empty list of segments. -/
def splitOnChar (sep : Char) : List Char → List (List Char)
  | [] => [[]]
  | ch :: rest =>
    if ch = sep then [] :: splitOnChar sep rest
    else
      match splitOnChar sep rest with
      | [] => [[ch]]
      | seg :: segs => (ch :: seg) :: segs

/-- Extension extraction `path.split('.').pop()?.toLowerCase() || 'bin'` used by
`uploadLocalFileToCloud` and `downloadCloudFileToLocal`.  `split` always
returns a non-empty array, so `pop()` yields the last segment; the `|| 'bin'`
fallback fires when that segment is empty after lowercasing. -/
def extOf (p : String) : String :=
  let last := (splitOnChar '.' p.data).getLastD []
  let lower := last.map Char.toLower
  if lower = [] then "bin" else String.mk lower

/-- Model of `supabase.storage.from(bucket).getPublicUrl(path)`: a durable URL
determined by the bucket and the remote key. -/
def publicUrl (bucket path : String) : String :=
  "https://storage/" ++ bucket ++ "/" ++ path

/-- One successful `supabase.storage.upload` call: which bucket, which remote
key, and with which content type the bytes were uploaded. -/
structure UploadEvent where
  bucket : String
  path : String
  mime : String
deriving DecidableEq, Repr

/-- Outcomes of the external effects a push can perform.
`readFileOk p` — whether `readLocalFile p` (and the subsequent base64 decode)
succeeds; `storageUploadOk b p` — whether the storage upload to bucket `b`, key
`p` succeeds; `composerInsertError` — the in-band error of the Supabase
`composers` insert; `workInsertError i` / `recInsertError i` — the in-band
error of the i-th `works` / `recordings` insert. -/
structure PushWorld where
  readFileOk : String → Bool
  storageUploadOk : String → String → Bool
  composerInsertError : Option String
  workInsertError : Nat → Option String
  recInsertError : Nat → Option String

/-- The world in which every external effect of a push succeeds. -/
def okPushWorld : PushWorld where
  readFileOk := fun _ => true
  storageUploadOk := fun _ _ => true
  composerInsertError := none
  workInsertError := fun _ => none
  recInsertError := fun _ => none

/-- `uploadLocalFileToCloud` from `src/services/cloud-api.ts`: read the local
file as base64 (throws on failure), derive the extension from the local path,
upload the decoded bytes under `remotePath ++ "." ++ ext` with the inferred
content type (throws on storage error), and return the public URL.  On success
we also return the upload event for the trace. -/
def uploadLocalFileToCloud (w : PushWorld) (localPath bucket remotePath : String) :
    Except String (UploadEvent × String) :=
  if ¬ w.readFileOk localPath then .error "readLocalFile failed"
  else
    let ext := extOf localPath
    let fullRemotePath := remotePath ++ "." ++ ext
    let mimeType := getMimeType ext
    if w.storageUploadOk bucket fullRemotePath then
      .ok ({ bucket := bucket, path := fullRemotePath, mime := mimeType },
        publicUrl bucket fullRemotePath)
    else .error "Storage upload failed"

/-- A row of the remote `composers` table, with the denormalized counts written
by `pushComposerToCloud`. -/
structure CloudComposerRow where
  id : String
  name : String
  period : String
  image : String
  sheet_music_count : Nat
  recording_count : Nat
deriving DecidableEq, Repr

/-- A row of the remote `works` table. -/
structure CloudWorkRow where
  id : String
  composer_id : String
  title : String
  edition : String
  year : String
  file_url : String
deriving DecidableEq, Repr

/-- A row of the remote `recordings` table. -/
structure CloudRecordingRow where
  id : String
  composer_id : String
  title : String
  performer : String
  duration : String
  year : String
  file_url : String
deriving DecidableEq, Repr

/-- The remote relational store.  Supabase mints row ids server-side; we model
that id stream with the counter `nextId`. -/
structure CloudState where
  nextId : Nat
  composers : List CloudComposerRow
  works : List CloudWorkRow
  recordings : List CloudRecordingRow
deriving DecidableEq, Repr

/-- An empty remote store. -/
def emptyCloud : CloudState := ⟨0, [], [], []⟩

/-- The id the remote store mints for its n-th insert. -/
def mintCloudId (n : Nat) : String := "cloud-" ++ toString n

/-- The `let cloudFileUrl = ''; if (work.fileUrl) try { … } catch { … }` block
of the per-Work push loop: the uploads performed (none or one) and the
resulting destination `file_url` (empty unless the upload succeeded). -/
def tryUploadWork (w : PushWorld) (cid : String) (wk : Work) :
    List UploadEvent × String :=
  if wk.fileUrl = "" then ([], "")
  else
    match uploadLocalFileToCloud w wk.fileUrl "sheet-music"
        ("sheets/" ++ cid ++ "_" ++ wk.id) with
    | .ok (ev, url) => ([ev], url)
    | .error _ => ([], "")

/-- The same block for a Recording (bucket `recordings`, key prefix
`audio/`). -/
def tryUploadRec (w : PushWorld) (cid : String) (rc : Recording) :
    List UploadEvent × String :=
  if rc.fileUrl = "" then ([], "")
  else
    match uploadLocalFileToCloud w rc.fileUrl "recordings"
        ("audio/" ++ cid ++ "_" ++ rc.id) with
    | .ok (ev, url) => ([ev], url)
    | .error _ => ([], "")

/-- The avatar block of `pushComposerToCloud` (bucket `avatars`, key
`composers/` + the SOURCE composer id). -/
def tryUploadAvatar (w : PushWorld) (c : Composer) : List UploadEvent × String :=
  if c.image = "" then ([], "")
  else
    match uploadLocalFileToCloud w c.image "avatars" ("composers/" ++ c.id) with
    | .ok (ev, url) => ([ev], url)
    | .error _ => ([], "")

/-- The destination `file_url` a pushed Work ends up with: empty when the source
reference is empty, the public URL when the upload succeeds, empty again when
any part of the transcode fails (the `try … catch` around the upload). -/
def pushedUrl (w : PushWorld) (cid : String) (wk : Work) : String :=
  (tryUploadWork w cid wk).2

/-- Same as `pushedUrl` for a Recording. -/
def pushedRecUrl (w : PushWorld) (cid : String) (rc : Recording) : String :=
  (tryUploadRec w cid rc).2

/-- The body of the per-Work loop of `pushComposerToCloud`.  Arguments: the
destination composer id `cid`, the fixed `total` step count, the remaining
works, the index `idx` of the next work in the source collection, the value of
`currentStep` before the next `reportProgress`, and the remote store.  Returns
the final store, the progress values emitted, and the storage uploads
performed.  An insert error is consumed (only logged), an upload error is
consumed inside its `try`; the loop itself never throws. -/
def pushWorksLoop (w : PushWorld) (cid : String) (total : Nat) :
    List Work → Nat → Nat → CloudState → CloudState × List Nat × List UploadEvent
  | [], _, _, st => (st, [], [])
  | wk :: rest, idx, step, st =>
    let up : List UploadEvent × String := tryUploadWork w cid wk
    let st1 : CloudState :=
      match w.workInsertError idx with
      | some _ => st
      | none =>
        { st with
          nextId := st.nextId + 1,
          works := st.works ++
            [{ id := mintCloudId st.nextId, composer_id := cid, title := wk.title,
               edition := wk.edition, year := wk.year, file_url := up.2 }] }
    let r := pushWorksLoop w cid total rest (idx + 1) (step + 1) st1
    (r.1, jsRound100 (step + 1) total :: r.2.1, up.1 ++ r.2.2)

/-- The per-Recording loop of `pushComposerToCloud`, mirroring
`pushWorksLoop`. -/
def pushRecsLoop (w : PushWorld) (cid : String) (total : Nat) :
    List Recording → Nat → Nat → CloudState →
      CloudState × List Nat × List UploadEvent
  | [], _, _, st => (st, [], [])
  | rc :: rest, idx, step, st =>
    let up : List UploadEvent × String := tryUploadRec w cid rc
    let st1 : CloudState :=
      match w.recInsertError idx with
      | some _ => st
      | none =>
        { st with
          nextId := st.nextId + 1,
          recordings := st.recordings ++
            [{ id := mintCloudId st.nextId, composer_id := cid, title := rc.title,
               performer := rc.performer, duration := rc.duration, year := rc.year,
               file_url := up.2 }] }
    let r := pushRecsLoop w cid total rest (idx + 1) (step + 1) st1
    (r.1, jsRound100 (step + 1) total :: r.2.1, up.1 ++ r.2.2)

/-- Result of a push: `err` is the rejection (if the promise rejected), `state`
the remote store after all writes that committed, `progress` the values the
callback received, `uploads` the storage uploads performed, `newComposerId` the
id the remote store minted for the composer (empty when the insert failed). -/
structure PushResult where
  err : Option String
  state : CloudState
  progress : List Nat
  uploads : List UploadEvent
  newComposerId : String

/-- `pushComposerToCloud` from `src/services/cloud-api.ts`.
`totalSteps = 1 + |works| + |recordings|`; the avatar upload is attempted first
(failure tolerated), then the composer row is inserted (failure throws —
before any progress is reported), then the Work and Recording loops run,
reporting progress after every item whether or not it succeeded.
In the source `work.edition || ''` etc. coalesce only the absent/empty case;
on `String` fields this is the identity, so fields are copied verbatim. -/
def pushComposerToCloud (w : PushWorld) (c : Composer) (st : CloudState) :
    PushResult :=
  let total := 1 + c.works.length + c.recordings.length
  let avatar : List UploadEvent × String := tryUploadAvatar w c
  match w.composerInsertError with
  | some e =>
    { err := some ("Failed to push composer: " ++ e), state := st,
      progress := [], uploads := avatar.1, newComposerId := "" }
  | none =>
    let cid := mintCloudId st.nextId
    let st1 : CloudState :=
      { st with
        nextId := st.nextId + 1,
        composers := st.composers ++
          [{ id := cid, name := c.name, period := c.period, image := avatar.2,
             sheet_music_count := c.works.length,
             recording_count := c.recordings.length }] }
    let wres := pushWorksLoop w cid total c.works 0 1 st1
    let rres := pushRecsLoop w cid total c.recordings 0 (1 + c.works.length) wres.1
    { err := none, state := rres.1,
      progress := jsRound100 1 total :: (wres.2.1 ++ rres.2.1),
      uploads := avatar.1 ++ wres.2.2 ++ rres.2.2,
      newComposerId := cid }

/-- A row of the local SQLite `composers` table (the time-valued `created_at`
default column is never read or written by the code under verification and is
omitted). -/
structure LocalComposerRow where
  id : String
  name : String
  period : String
  image : String
deriving DecidableEq, Repr

/-- A row of the local SQLite `works` table. -/
structure LocalWorkRow where
  id : String
  composer_id : String
  title : String
  edition : String
  year : String
  file_url : String
deriving DecidableEq, Repr

/-- A row of the local SQLite `recordings` table. -/
structure LocalRecordingRow where
  id : String
  composer_id : String
  title : String
  performer : String
  duration : String
  year : String
  file_url : String
deriving DecidableEq, Repr

/-- The local relational store.  Every local id comes from
`crypto.randomUUID()` (`generateId` in the database service, and directly in
`pullComposerToLocal` for downloaded file names); `nextId` models that stream
of fresh identifiers. -/
structure LocalState where
  nextId : Nat
  composers : List LocalComposerRow
  works : List LocalWorkRow
  recordings : List LocalRecordingRow
deriving DecidableEq, Repr

/-- An empty local store. -/
def emptyLocal : LocalState := ⟨0, [], [], []⟩

/-- The n-th locally minted UUID. -/
def mintLocalId (n : Nat) : String := "local-" ++ toString n

/-- Outcomes of the external effects a pull can perform.
`composerQueryOk` — whether the `.single()` query of the remote composer row
succeeds; `worksQueryOk` / `recordingsQueryOk` — whether the child queries
succeed (their errors are discarded by `getCloudComposer`, yielding empty
lists); `downloadOk u` — whether the network fetch plus local write of URL `u`
succeeds; `workInsertError i` / `recInsertError i` — whether the i-th
`dbCreateWork` / `dbCreateRecording` call throws. -/
structure PullWorld where
  composerQueryOk : Bool
  worksQueryOk : Bool
  recordingsQueryOk : Bool
  downloadOk : String → Bool
  workInsertError : Nat → Option String
  recInsertError : Nat → Option String

/-- The world in which every external effect of a pull succeeds. -/
def okPullWorld : PullWorld where
  composerQueryOk := true
  worksQueryOk := true
  recordingsQueryOk := true
  downloadOk := fun _ => true
  workInsertError := fun _ => none
  recInsertError := fun _ => none

/-- `getCloudComposer` from `src/services/cloud-api.ts`: the composer query
throws on error or missing row; the `works`/`recordings` query errors are
ignored (`data || []`), and rows are mapped to entities with
`fileUrl := file_url` and `'' `-coalesced optional columns (identity on the
`String`-valued model). -/
def getCloudComposer (w : PullWorld) (st : CloudState) (id : String) :
    Except String Composer :=
  if ¬ w.composerQueryOk then .error "Cloud composer not found: query failed"
  else
    match st.composers.find? (fun r => r.id == id) with
    | none => .error "Cloud composer not found"
    | some row =>
      .ok
        { id := row.id, name := row.name, period := row.period, image := row.image,
          works :=
            if w.worksQueryOk then
              (st.works.filter (fun r => r.composer_id == id)).map
                (fun r =>
                  { id := r.id, composerId := r.composer_id, title := r.title,
                    edition := r.edition, year := r.year, fileUrl := r.file_url })
            else [],
          recordings :=
            if w.recordingsQueryOk then
              (st.recordings.filter (fun r => r.composer_id == id)).map
                (fun r =>
                  { id := r.id, composerId := r.composer_id, title := r.title,
                    performer := r.performer, duration := r.duration,
                    year := r.year, fileUrl := r.file_url })
            else [] }

/-- The three storage categories of `downloadCloudFileToLocal`. -/
inductive FileCategory where
  | sheets
  | recordings
  | avatars
deriving DecidableEq, Repr

/-- The `dirMap` of `downloadCloudFileToLocal`. -/
def dirMap : FileCategory → String
  | .sheets => "SML/sheets"
  | .recordings => "SML/recordings"
  | .avatars => "SML/avatars"

/-- The `pathname` of a URL as read by `new URL(u).pathname`: everything from
the first `/` after the scheme and host (queries/fragments do not occur in
this system's URLs). -/
def urlPathname (u : String) : String :=
  let rest :=
    if u.data.take 8 = "https://".data then u.data.drop 8
    else if u.data.take 7 = "http://".data then u.data.drop 7
    else u.data
  match splitOnChar '/' rest with
  | [] => ""
  | _ :: segs => String.mk ('/' :: List.intercalate ['/'] segs)

/-- `downloadCloudFileToLocal` from `src/services/cloud-api.ts`: derive the
extension from the URL path, fetch the bytes (throws on failure), re-encode to
base64, ensure the category directory exists, write the file, and return the
local path `dir/fileId.ext`. -/
def downloadCloudFileToLocal (w : PullWorld) (cloudUrl : String)
    (category : FileCategory) (fileId : String) : Except String String :=
  let ext := extOf (urlPathname cloudUrl)
  if ¬ w.downloadOk cloudUrl then .error "Download failed"
  else .ok (dirMap category ++ "/" ++ fileId ++ "." ++ ext)

/-- `dbCreateComposer` from the local database service: mint an id, insert the
row, return it (an echo of the input plus the id — creation does not
re-read). -/
def dbCreateComposer (st : LocalState) (name period image : String) :
    LocalState × LocalComposerRow :=
  let row : LocalComposerRow :=
    { id := mintLocalId st.nextId, name := name, period := period, image := image }
  ({ st with nextId := st.nextId + 1, composers := st.composers ++ [row] }, row)

/-- `dbCreateWork`: mint an id and insert the row (`edition || ''` and
`year || ''` are the identity on the `String`-valued model). -/
def dbCreateWork (st : LocalState) (composer_id title edition year fileUrl : String) :
    LocalState × LocalWorkRow :=
  let row : LocalWorkRow :=
    { id := mintLocalId st.nextId, composer_id := composer_id, title := title,
      edition := edition, year := year, file_url := fileUrl }
  ({ st with nextId := st.nextId + 1, works := st.works ++ [row] }, row)

/-- `dbCreateRecording`: mint an id and insert the row. -/
def dbCreateRecording
    (st : LocalState) (composer_id title performer duration year fileUrl : String) :
    LocalState × LocalRecordingRow :=
  let row : LocalRecordingRow :=
    { id := mintLocalId st.nextId, composer_id := composer_id, title := title,
      performer := performer, duration := duration, year := year,
      file_url := fileUrl }
  ({ st with nextId := st.nextId + 1, recordings := st.recordings ++ [row] }, row)

/-- The `let localFilePath = ''; if (work.fileUrl) try { … } catch { … }` block
of the per-Work pull loop: mint a fresh UUID for the file name, attempt the
download, and swallow its failure (empty path).  Returns the store (UUID
stream advanced when a download was attempted) and the local path. -/
def tryDownloadWork (w : PullWorld) (st : LocalState) (wk : Work) :
    LocalState × String :=
  if wk.fileUrl = "" then (st, "")
  else
    let newWorkId := mintLocalId st.nextId
    let st' := { st with nextId := st.nextId + 1 }
    match downloadCloudFileToLocal w wk.fileUrl .sheets newWorkId with
    | .ok path => (st', path)
    | .error _ => (st', "")

/-- The same block for a Recording (category `recordings`). -/
def tryDownloadRec (w : PullWorld) (st : LocalState) (rc : Recording) :
    LocalState × String :=
  if rc.fileUrl = "" then (st, "")
  else
    let newRecId := mintLocalId st.nextId
    let st' := { st with nextId := st.nextId + 1 }
    match downloadCloudFileToLocal w rc.fileUrl .recordings newRecId with
    | .ok path => (st', path)
    | .error _ => (st', "")

/-- The avatar block of `pullComposerToLocal` (category `avatars`, fresh
UUID). -/
def tryDownloadAvatar (w : PullWorld) (st : LocalState) (c : Composer) :
    LocalState × String :=
  if c.image = "" then (st, "")
  else
    let fid := mintLocalId st.nextId
    let st' := { st with nextId := st.nextId + 1 }
    match downloadCloudFileToLocal w c.image .avatars fid with
    | .ok p => (st', p)
    | .error _ => (st', "")

/-- The per-Work loop of `pullComposerToLocal`.  The download is wrapped in
`try … catch` (failure yields an empty local path) and mints a fresh UUID for
the file name; the `dbCreateWork` call is NOT wrapped — if it throws, the loop
stops, no progress is reported for the failed item, and the error propagates.
Returns the final store, the progress values emitted, and the propagated error
if any. -/
def pullWorksLoop (w : PullWorld) (lid : String) (total : Nat) :
    List Work → Nat → Nat → LocalState → LocalState × List Nat × Option String
  | [], _, _, st => (st, [], none)
  | wk :: rest, idx, step, st =>
    let dl : LocalState × String := tryDownloadWork w st wk
    match w.workInsertError idx with
    | some e => (dl.1, [], some ("dbCreateWork failed: " ++ e))
    | none =>
      let st2 := (dbCreateWork dl.1 lid wk.title wk.edition wk.year dl.2).1
      let r := pullWorksLoop w lid total rest (idx + 1) (step + 1) st2
      (r.1, jsRound100 (step + 1) total :: r.2.1, r.2.2)

/-- The per-Recording loop of `pullComposerToLocal`, mirroring
`pullWorksLoop`. -/
def pullRecsLoop (w : PullWorld) (lid : String) (total : Nat) :
    List Recording → Nat → Nat → LocalState →
      LocalState × List Nat × Option String
  | [], _, _, st => (st, [], none)
  | rc :: rest, idx, step, st =>
    let dl : LocalState × String := tryDownloadRec w st rc
    match w.recInsertError idx with
    | some e => (dl.1, [], some ("dbCreateRecording failed: " ++ e))
    | none =>
      let st2 :=
        (dbCreateRecording dl.1 lid rc.title rc.performer rc.duration rc.year dl.2).1
      let r := pullRecsLoop w lid total rest (idx + 1) (step + 1) st2
      (r.1, jsRound100 (step + 1) total :: r.2.1, r.2.2)

/-- Result of a pull: rejection (if any), local store after the writes that
committed, progress values received by the callback, and the id of the created
local composer (empty when the call rejected before creating it). -/
structure PullResult where
  err : Option String
  state : LocalState
  progress : List Nat
  newComposerId : String

/-- `pullComposerToLocal` from `src/services/cloud-api.ts`: fetch the full
remote subtree first (a failure here rejects before any progress is reported
and before `totalSteps` is even computed); download the avatar (failure
tolerated); create the local composer with the `" (副本)"` copy suffix; then
run the Work and Recording loops, whose insert failures propagate. -/
def pullComposerToLocal (w : PullWorld) (cloudComposerId : String)
    (cst : CloudState) (lst : LocalState) : PullResult :=
  match getCloudComposer w cst cloudComposerId with
  | .error e => { err := some e, state := lst, progress := [], newComposerId := "" }
  | .ok c =>
    let total := 1 + c.works.length + c.recordings.length
    let avatar : LocalState × String := tryDownloadAvatar w lst c
    let created := dbCreateComposer avatar.1 (c.name ++ " (副本)") c.period avatar.2
    let wres := pullWorksLoop w created.2.id total c.works 0 1 created.1
    match wres.2.2 with
    | some e =>
      { err := some e, state := wres.1,
        progress := jsRound100 1 total :: wres.2.1, newComposerId := created.2.id }
    | none =>
      let rres :=
        pullRecsLoop w created.2.id total c.recordings 0 (1 + c.works.length) wres.1
      { err := rres.2.2, state := rres.1,
        progress := jsRound100 1 total :: (wres.2.1 ++ rres.2.1),
        newComposerId := created.2.id }

/-- A partial Composer update, as passed to `dbUpdateComposer`.  A `none` field
is absent from the input object; `some s` is a present field with value `s`.
The keys `works`, `recordings`, `id`, `sheetMusicCount`, `recordingCount` are
filtered out by the source before building the `UPDATE`, so only the three
stored columns remain. -/
structure ComposerPatch where
  name : Option String := none
  period : Option String := none
  image : Option String := none
deriving DecidableEq, Repr

/-- A partial Work update, as passed to `dbUpdateWork`. -/
structure WorkPatch where
  title : Option String := none
  edition : Option String := none
  year : Option String := none
  fileUrl : Option String := none
deriving DecidableEq, Repr

/-- A partial Recording update, as passed to `dbUpdateRecording`.  The source
destructures away `id`, `created_at`, `composer_id` and handles `fileUrl`
separately, leaving these four keys in the `...rest` spread. -/
structure RecordingPatch where
  title : Option String := none
  performer : Option String := none
  duration : Option String := none
  year : Option String := none
  fileUrl : Option String := none
deriving DecidableEq, Repr

/-- Semantics of a field the source applies whenever it is PRESENT in the
input object (the `...rest` spread / `Object.keys` style): any present value,
including the empty string, overwrites the stored one. -/
def presentApply (o : Option String) (old : String) : String :=
  match o with
  | some s => s
  | none => old

/-- Semantics of a field the source applies only when TRUTHY
(`if (work.title) updates.title = work.title`): a present empty string is
falsy and is silently dropped from the update. -/
def truthyApply (o : Option String) (old : String) : String :=
  match o with
  | some s => if s = "" then old else s
  | none => old

/-- `dbUpdateComposer`: build the `SET` list from the present fields (excluded
keys dropped), run the `UPDATE`, then re-read and return the row.  When no
field is present the source skips the `UPDATE` and just re-reads; the mapped
store is unchanged in that case, so the uniform model coincides. -/
def dbUpdateComposer (st : LocalState) (id : String) (p : ComposerPatch) :
    LocalState × Option LocalComposerRow :=
  let st' : LocalState :=
    { st with
      composers := st.composers.map (fun r =>
        if r.id == id then
          { r with
            name := presentApply p.name r.name,
            period := presentApply p.period r.period,
            image := presentApply p.image r.image }
        else r) }
  (st', st'.composers.find? (fun r => r.id == id))

/-- `dbUpdateWork`: every field is guarded by a truthiness test
(`if (work.title) …`), so present-but-empty fields are dropped; then the row is
re-read and returned. -/
def dbUpdateWork (st : LocalState) (id : String) (p : WorkPatch) :
    LocalState × Option LocalWorkRow :=
  let st' : LocalState :=
    { st with
      works := st.works.map (fun r =>
        if r.id == id then
          { r with
            title := truthyApply p.title r.title,
            edition := truthyApply p.edition r.edition,
            year := truthyApply p.year r.year,
            file_url := truthyApply p.fileUrl r.file_url }
        else r) }
  (st', st'.works.find? (fun r => r.id == id))

/-- `dbUpdateRecording`: the `...rest` fields (`title`, `performer`,
`duration`, `year`) are applied whenever present, while `file_url` is applied
only when `fileUrl` is truthy; then the row is re-read and returned. -/
def dbUpdateRecording (st : LocalState) (id : String) (p : RecordingPatch) :
    LocalState × Option LocalRecordingRow :=
  let st' : LocalState :=
    { st with
      recordings := st.recordings.map (fun r =>
        if r.id == id then
          { r with
            title := presentApply p.title r.title,
            performer := presentApply p.performer r.performer,
            duration := presentApply p.duration r.duration,
            year := presentApply p.year r.year,
            file_url := truthyApply p.fileUrl r.file_url }
        else r) }
  (st', st'.recordings.find? (fun r => r.id == id))

/-- Outcomes of the external effects of `localApi.deleteComposer`:
`getComposerOk` — whether the `dbGetComposer` queries succeed; `resolveUri p`
— the URI `Filesystem.getUri` returns for path `p` (the empty string models a
failure, which `getLocalFileUri` swallows); `deleteFileOk p` — whether
`Filesystem.deleteFile p` succeeds (its failure is swallowed inside
`deleteLocalFile`, so no observable of the model depends on it). -/
structure DeleteWorld where
  getComposerOk : Bool
  resolveUri : String → String
  deleteFileOk : String → Bool

/-- `Capacitor.convertFileSrc`: rewrite a `file://` URI to the WebView-served
form. -/
def convertFileSrc (uri : String) : String :=
  "https://localhost/_capacitor_file_" ++ uri

/-- `getLocalFileUri` from `src/services/local-file-storage.ts`: empty path →
empty string; otherwise the Filesystem URI, with failures caught and turned
into the empty string. -/
def getLocalFileUri (w : DeleteWorld) (filePath : String) : String :=
  if filePath = "" then "" else w.resolveUri filePath

/-- `resolveImageUrl` from the local database service: HTTP(S) URLs and empty
strings pass through; otherwise resolve to a Filesystem URI and convert for
the WebView, falling back to the raw path on failure. -/
def resolveImageUrl (w : DeleteWorld) (imagePath : String) : String :=
  if imagePath = "" || imagePath.startsWith "http://"
      || imagePath.startsWith "https://" then imagePath
  else
    let uri := getLocalFileUri w imagePath
    if uri = "" then imagePath else convertFileSrc uri

/-- `dbGetComposer` from the local database service, as used by
`localApi.deleteComposer`: throws when the composer row is missing (or a query
fails); returns the row with its avatar path RESOLVED through
`resolveImageUrl` and its children with `fileUrl := file_url`. -/
def dbGetComposer (w : DeleteWorld) (st : LocalState) (id : String) :
    Except String Composer :=
  if ¬ w.getComposerOk then .error "query failed"
  else
    match st.composers.find? (fun r => r.id == id) with
    | none => .error "Composer not found"
    | some row =>
      .ok
        { id := row.id, name := row.name, period := row.period,
          image := resolveImageUrl w row.image,
          works :=
            (st.works.filter (fun r => r.composer_id == id)).map
              (fun r =>
                { id := r.id, composerId := r.composer_id, title := r.title,
                  edition := r.edition, year := r.year, fileUrl := r.file_url }),
          recordings :=
            (st.recordings.filter (fun r => r.composer_id == id)).map
              (fun r =>
                { id := r.id, composerId := r.composer_id, title := r.title,
                  performer := r.performer, duration := r.duration,
                  year := r.year, fileUrl := r.file_url }) }

/-- `deleteLocalFile` from `src/services/local-file-storage.ts`: returns
immediately on an empty path, otherwise attempts the Filesystem delete with
any error caught and logged.  The model returns the list of paths for which a
delete was attempted; it never fails. -/
def deleteLocalFile (filePath : String) : List String :=
  if filePath = "" then [] else [filePath]

/-- `dbDeleteComposer`: `DELETE FROM composers WHERE id = ?`.  The schema
declares `ON DELETE CASCADE` on both child tables and `initDatabase` enables
`PRAGMA foreign_keys = ON`, so the store-level guarantee removes the composer's
works and recordings with it. -/
def dbDeleteComposer (st : LocalState) (id : String) : LocalState :=
  { st with
    composers := st.composers.filter (fun r => !(r.id == id)),
    works := st.works.filter (fun r => !(r.composer_id == id)),
    recordings := st.recordings.filter (fun r => !(r.composer_id == id)) }

/-- Result of `localApi.deleteComposer`: rejection (if any), the local store
afterwards, and the file paths whose deletion was attempted. -/
structure DeleteResult where
  err : Option String
  state : LocalState
  fileDeletes : List String

/-- `localApi.deleteComposer` from `src/services/local-api.ts`: inside one
`try … catch`, read the full composer and attempt to delete each work file,
each recording file, and the (resolved) avatar; any failure in that block —
including `dbGetComposer` throwing — is caught and only logged.  The database
delete (with its cascade) is then issued unconditionally. -/
def localApiDeleteComposer (w : DeleteWorld) (st : LocalState) (id : String) :
    DeleteResult :=
  let attempts : List String :=
    match dbGetComposer w st id with
    | .error _ => []
    | .ok data =>
      (data.works.flatMap (fun wk => deleteLocalFile wk.fileUrl)) ++
        (data.recordings.flatMap (fun rc => deleteLocalFile rc.fileUrl)) ++
        (if data.image = "" then [] else deleteLocalFile data.image)
  { err := none, state := dbDeleteComposer st id, fileDeletes := attempts }

/-! ## Derived descriptions of the loops, used to state the theorems -/

/-- The remote `works` rows a push appends when every per-item insert succeeds,
with the server minting ids from `n` upward. -/
def pushedWorkRows (w : PushWorld) (cid : String) : Nat → List Work → List CloudWorkRow
  | _, [] => []
  | n, wk :: rest =>
    { id := mintCloudId n, composer_id := cid, title := wk.title,
      edition := wk.edition, year := wk.year, file_url := pushedUrl w cid wk }
      :: pushedWorkRows w cid (n + 1) rest

/-- The remote `recordings` rows a push appends when every per-item insert
succeeds. -/
def pushedRecRows (w : PushWorld) (cid : String) : Nat → List Recording → List CloudRecordingRow
  | _, [] => []
  | n, rc :: rest =>
    { id := mintCloudId n, composer_id := cid, title := rc.title,
      performer := rc.performer, duration := rc.duration, year := rc.year,
      file_url := pushedRecUrl w cid rc }
      :: pushedRecRows w cid (n + 1) rest

/-- The storage uploads the per-Work push loop performs (independent of the
relational store and of insert failures). -/
def pushedWorkUploads (w : PushWorld) (cid : String) : List Work → List UploadEvent
  | [] => []
  | wk :: rest => (tryUploadWork w cid wk).1 ++ pushedWorkUploads w cid rest

/-- The storage uploads the per-Recording push loop performs. -/
def pushedRecUploads (w : PushWorld) (cid : String) : List Recording → List UploadEvent
  | [] => []
  | rc :: rest => (tryUploadRec w cid rc).1 ++ pushedRecUploads w cid rest

/-- The `(composer_id, title)` pairs of the work rows a push actually inserts:
items whose insert errors are skipped, all others kept, in source order,
starting at source index `i`. -/
def pushKeptWorkTitles (w : PushWorld) (cid : String) : Nat → List Work → List (String × String)
  | _, [] => []
  | i, wk :: rest =>
    (match w.workInsertError i with
     | some _ => []
     | none => [(cid, wk.title)]) ++ pushKeptWorkTitles w cid (i + 1) rest

/-- The avatar upload a push performs before inserting the composer row. -/
def pushedAvatarUpload (w : PushWorld) (c : Composer) : List UploadEvent :=
  (tryUploadAvatar w c).1

/-! ## Arithmetic of the progress reporter -/

theorem jsRound100_mono (n : Nat) {k k' : Nat} (h : k ≤ k') :
    jsRound100 k n ≤ jsRound100 k' n := by
  unfold jsRound100
  exact Nat.div_le_div_right (by omega)

theorem jsRound100_succ_ge (n : Nat) (hn : 0 < n) (hle : n ≤ 100) (k : Nat) :
    jsRound100 k n + 1 ≤ jsRound100 (k + 1) n := by
  unfold jsRound100
  have h1 : (200 * k + n + 2 * n) / (2 * n) ≤ (200 * (k + 1) + n) / (2 * n) :=
    Nat.div_le_div_right (by omega)
  rw [Nat.add_div_right _ (by omega : 0 < 2 * n)] at h1
  omega

theorem jsRound100_self (n : Nat) (hn : 0 < n) : jsRound100 n n = 100 := by
  unfold jsRound100
  have h : 200 * n + n = n + 2 * n * 100 := by ring
  rw [h, Nat.add_mul_div_left _ _ (by omega : 0 < 2 * n),
    Nat.div_eq_of_lt (by omega)]

theorem jsRound100_le_100 (n k : Nat) (hn : 0 < n) (hk : k ≤ n) :
    jsRound100 k n ≤ 100 := by
  have := jsRound100_mono n hk
  rw [jsRound100_self n hn] at this
  exact this

theorem jsRound100_strictMono (n : Nat) (hn : 0 < n) (hle : n ≤ 100) :
    StrictMono (fun k => jsRound100 k n) := by
  apply strictMono_nat_of_lt_succ
  intro k
  have := jsRound100_succ_ge n hn hle k
  omega

theorem progressSeq_length (n : Nat) : (progressSeq n).length = n := by
  simp [progressSeq]

theorem progressSeq_getLast (n : Nat) (hn : 0 < n) :
    (progressSeq n).getLast? = some 100 := by
  obtain ⟨m, rfl⟩ : ∃ m, n = m + 1 := ⟨n - 1, by omega⟩
  unfold progressSeq
  rw [List.range_succ, List.map_append, List.map_cons, List.map_nil,
    List.getLast?_concat, jsRound100_self _ hn]

theorem progressSeq_mem_le (n : Nat) {x : Nat} (hx : x ∈ progressSeq n) :
    x ≤ 100 := by
  unfold progressSeq at hx
  obtain ⟨i, hi, rfl⟩ := List.mem_map.mp hx
  rw [List.mem_range] at hi
  exact jsRound100_le_100 n (i + 1) (by omega) (by omega)

theorem progressSeq_pairwise_le (n : Nat) :
    (progressSeq n).Pairwise (· ≤ ·) := by
  unfold progressSeq
  exact (List.pairwise_lt_range n).map _
    (fun a b hab => jsRound100_mono n (by omega))

theorem progressSeq_pairwise_lt (n : Nat) (hn : 0 < n) (hle : n ≤ 100) :
    (progressSeq n).Pairwise (· < ·) := by
  unfold progressSeq
  exact (List.pairwise_lt_range n).map _
    (fun a b hab => jsRound100_strictMono n hn hle (by omega))

/-! ## Behaviour of the push loops -/

theorem pushWorksLoop_progress (w : PushWorld) (cid : String) (total : Nat) :
    ∀ (ws : List Work) (idx step : Nat) (st : CloudState),
    (pushWorksLoop w cid total ws idx step st).2.1 =
      (List.range ws.length).map (fun j => jsRound100 (step + 1 + j) total) := by
  intro ws
  induction ws with
  | nil => intro idx step st; simp [pushWorksLoop]
  | cons wk rest ih =>
    intro idx step st
    have harg : ∀ a b : Nat, a = b → jsRound100 a total = jsRound100 b total :=
      fun a b h => by rw [h]
    simp only [pushWorksLoop, List.length_cons]
    rw [ih, List.range_succ_eq_map, List.map_cons, List.map_map]
    refine congrArg₂ List.cons (harg _ _ (by omega)) ?_
    apply List.map_congr_left
    intro a _
    simp only [Function.comp_apply, Nat.succ_eq_add_one]
    exact harg _ _ (by omega)

theorem pushRecsLoop_progress (w : PushWorld) (cid : String) (total : Nat) :
    ∀ (rs : List Recording) (idx step : Nat) (st : CloudState),
    (pushRecsLoop w cid total rs idx step st).2.1 =
      (List.range rs.length).map (fun j => jsRound100 (step + 1 + j) total) := by
  intro rs
  induction rs with
  | nil => intro idx step st; simp [pushRecsLoop]
  | cons rc rest ih =>
    intro idx step st
    have harg : ∀ a b : Nat, a = b → jsRound100 a total = jsRound100 b total :=
      fun a b h => by rw [h]
    simp only [pushRecsLoop, List.length_cons]
    rw [ih, List.range_succ_eq_map, List.map_cons, List.map_map]
    refine congrArg₂ List.cons (harg _ _ (by omega)) ?_
    apply List.map_congr_left
    intro a _
    simp only [Function.comp_apply, Nat.succ_eq_add_one]
    exact harg _ _ (by omega)

theorem pushWorksLoop_uploads (w : PushWorld) (cid : String) (total : Nat) :
    ∀ (ws : List Work) (idx step : Nat) (st : CloudState),
    (pushWorksLoop w cid total ws idx step st).2.2 = pushedWorkUploads w cid ws := by
  intro ws
  induction ws with
  | nil => intro idx step st; simp [pushWorksLoop, pushedWorkUploads]
  | cons wk rest ih =>
    intro idx step st
    simp only [pushWorksLoop, pushedWorkUploads]
    rw [ih]

theorem pushRecsLoop_uploads (w : PushWorld) (cid : String) (total : Nat) :
    ∀ (rs : List Recording) (idx step : Nat) (st : CloudState),
    (pushRecsLoop w cid total rs idx step st).2.2 = pushedRecUploads w cid rs := by
  intro rs
  induction rs with
  | nil => intro idx step st; simp [pushRecsLoop, pushedRecUploads]
  | cons rc rest ih =>
    intro idx step st
    simp only [pushRecsLoop, pushedRecUploads]
    rw [ih]

theorem pushWorksLoop_composers (w : PushWorld) (cid : String) (total : Nat) :
    ∀ (ws : List Work) (idx step : Nat) (st : CloudState),
    ((pushWorksLoop w cid total ws idx step st).1).composers = st.composers := by
  intro ws
  induction ws with
  | nil => intro idx step st; simp [pushWorksLoop]
  | cons wk rest ih =>
    intro idx step st
    simp only [pushWorksLoop]
    rw [ih]
    cases w.workInsertError idx <;> rfl

theorem pushWorksLoop_recordings (w : PushWorld) (cid : String) (total : Nat) :
    ∀ (ws : List Work) (idx step : Nat) (st : CloudState),
    ((pushWorksLoop w cid total ws idx step st).1).recordings = st.recordings := by
  intro ws
  induction ws with
  | nil => intro idx step st; simp [pushWorksLoop]
  | cons wk rest ih =>
    intro idx step st
    simp only [pushWorksLoop]
    rw [ih]
    cases w.workInsertError idx <;> rfl

theorem pushRecsLoop_composers (w : PushWorld) (cid : String) (total : Nat) :
    ∀ (rs : List Recording) (idx step : Nat) (st : CloudState),
    ((pushRecsLoop w cid total rs idx step st).1).composers = st.composers := by
  intro rs
  induction rs with
  | nil => intro idx step st; simp [pushRecsLoop]
  | cons rc rest ih =>
    intro idx step st
    simp only [pushRecsLoop]
    rw [ih]
    cases w.recInsertError idx <;> rfl

theorem pushRecsLoop_works (w : PushWorld) (cid : String) (total : Nat) :
    ∀ (rs : List Recording) (idx step : Nat) (st : CloudState),
    ((pushRecsLoop w cid total rs idx step st).1).works = st.works := by
  intro rs
  induction rs with
  | nil => intro idx step st; simp [pushRecsLoop]
  | cons rc rest ih =>
    intro idx step st
    simp only [pushRecsLoop]
    rw [ih]
    cases w.recInsertError idx <;> rfl

theorem pushWorksLoop_works_titles (w : PushWorld) (cid : String) (total : Nat) :
    ∀ (ws : List Work) (idx step : Nat) (st : CloudState),
    ((pushWorksLoop w cid total ws idx step st).1).works.map
        (fun r => (r.composer_id, r.title)) =
      st.works.map (fun r => (r.composer_id, r.title)) ++
        pushKeptWorkTitles w cid idx ws := by
  intro ws
  induction ws with
  | nil => intro idx step st; simp [pushWorksLoop, pushKeptWorkTitles]
  | cons wk rest ih =>
    intro idx step st
    simp only [pushWorksLoop, pushKeptWorkTitles]
    rw [ih]
    cases w.workInsertError idx <;> simp

theorem pushWorksLoop_state_ok (w : PushWorld) (cid : String) (total : Nat) :
    ∀ (ws : List Work) (idx step : Nat) (st : CloudState),
    (∀ j, j < ws.length → w.workInsertError (idx + j) = none) →
    (pushWorksLoop w cid total ws idx step st).1 =
      { nextId := st.nextId + ws.length,
        composers := st.composers,
        works := st.works ++ pushedWorkRows w cid st.nextId ws,
        recordings := st.recordings } := by
  intro ws
  induction ws with
  | nil => intro idx step st _; simp [pushWorksLoop, pushedWorkRows]
  | cons wk rest ih =>
    intro idx step st hok
    have h0 : w.workInsertError idx = none := by
      have := hok 0 (by simp)
      simpa using this
    have hok' : ∀ j, j < rest.length → w.workInsertError (idx + 1 + j) = none := by
      intro j hj
      have h := hok (j + 1) (by simp only [List.length_cons]; omega)
      have e : idx + 1 + j = idx + (j + 1) := by omega
      rw [e]
      exact h
    simp only [pushWorksLoop, h0]
    rw [ih (idx + 1) (step + 1) _ hok']
    simp only [pushedWorkRows, List.length_cons, pushedUrl, CloudState.mk.injEq]
    exact ⟨by omega, trivial, by simp [List.append_assoc], trivial⟩

theorem pushRecsLoop_state_ok (w : PushWorld) (cid : String) (total : Nat) :
    ∀ (rs : List Recording) (idx step : Nat) (st : CloudState),
    (∀ j, j < rs.length → w.recInsertError (idx + j) = none) →
    (pushRecsLoop w cid total rs idx step st).1 =
      { nextId := st.nextId + rs.length,
        composers := st.composers,
        works := st.works,
        recordings := st.recordings ++ pushedRecRows w cid st.nextId rs } := by
  intro rs
  induction rs with
  | nil => intro idx step st _; simp [pushRecsLoop, pushedRecRows]
  | cons rc rest ih =>
    intro idx step st hok
    have h0 : w.recInsertError idx = none := by
      have := hok 0 (by simp)
      simpa using this
    have hok' : ∀ j, j < rest.length → w.recInsertError (idx + 1 + j) = none := by
      intro j hj
      have h := hok (j + 1) (by simp only [List.length_cons]; omega)
      have e : idx + 1 + j = idx + (j + 1) := by omega
      rw [e]
      exact h
    simp only [pushRecsLoop, h0]
    rw [ih (idx + 1) (step + 1) _ hok']
    simp only [pushedRecRows, List.length_cons, pushedRecUrl, CloudState.mk.injEq]
    exact ⟨by omega, trivial, trivial, by simp [List.append_assoc]⟩

/-! ## Projections of the derived row descriptions -/

theorem pushedWorkRows_map_fields (w : PushWorld) (cid : String) :
    ∀ (n : Nat) (ws : List Work),
    (pushedWorkRows w cid n ws).map
        (fun r => (r.composer_id, r.title, r.edition, r.year)) =
      ws.map (fun wk => (cid, wk.title, wk.edition, wk.year)) := by
  intro n ws
  induction ws generalizing n with
  | nil => simp [pushedWorkRows]
  | cons wk rest ih => simp [pushedWorkRows, ih]

theorem pushedRecRows_map_fields (w : PushWorld) (cid : String) :
    ∀ (n : Nat) (rs : List Recording),
    (pushedRecRows w cid n rs).map
        (fun r => (r.composer_id, r.title, r.performer, r.duration, r.year)) =
      rs.map (fun rc => (cid, rc.title, rc.performer, rc.duration, rc.year)) := by
  intro n rs
  induction rs generalizing n with
  | nil => simp [pushedRecRows]
  | cons rc rest ih => simp [pushedRecRows, ih]

theorem pushedWorkRows_map_fileUrl (w : PushWorld) (cid : String) :
    ∀ (n : Nat) (ws : List Work),
    (pushedWorkRows w cid n ws).map (fun r => r.file_url) =
      ws.map (fun wk => pushedUrl w cid wk) := by
  intro n ws
  induction ws generalizing n with
  | nil => simp [pushedWorkRows]
  | cons wk rest ih => simp [pushedWorkRows, ih]

theorem pushedWorkRows_map_id (w : PushWorld) (cid : String) :
    ∀ (n : Nat) (ws : List Work),
    (pushedWorkRows w cid n ws).map (fun r => r.id) =
      (List.range ws.length).map (fun i => mintCloudId (n + i)) := by
  intro n ws
  induction ws generalizing n with
  | nil => simp [pushedWorkRows]
  | cons wk rest ih =>
    have harg : ∀ a b : Nat, a = b → mintCloudId a = mintCloudId b :=
      fun a b h => by rw [h]
    simp only [pushedWorkRows, List.map_cons, List.length_cons, ih,
      List.range_succ_eq_map, List.map_map]
    refine congrArg₂ List.cons (harg _ _ (by omega)) ?_
    apply List.map_congr_left
    intro a _
    simp only [Function.comp_apply, Nat.succ_eq_add_one]
    exact harg _ _ (by omega)

theorem pushedWorkRows_composer_id (w : PushWorld) (cid : String) :
    ∀ (n : Nat) (ws : List Work) (r : CloudWorkRow),
    r ∈ pushedWorkRows w cid n ws → r.composer_id = cid := by
  intro n ws
  induction ws generalizing n with
  | nil => intro r hr; simp [pushedWorkRows] at hr
  | cons wk rest ih =>
    intro r hr
    simp only [pushedWorkRows, List.mem_cons] at hr
    rcases hr with h | h
    · rw [h]
    · exact ih _ r h

theorem pushedRecRows_composer_id (w : PushWorld) (cid : String) :
    ∀ (n : Nat) (rs : List Recording) (r : CloudRecordingRow),
    r ∈ pushedRecRows w cid n rs → r.composer_id = cid := by
  intro n rs
  induction rs generalizing n with
  | nil => intro r hr; simp [pushedRecRows] at hr
  | cons rc rest ih =>
    intro r hr
    simp only [pushedRecRows, List.mem_cons] at hr
    rcases hr with h | h
    · rw [h]
    · exact ih _ r h

theorem pushKeptWorkTitles_eq (w : PushWorld) (cid : String) :
    ∀ (i : Nat) (ws : List Work),
    pushKeptWorkTitles w cid i ws =
      ((ws.enumFrom i).filter (fun p => (w.workInsertError p.1).isNone)).map
        (fun p => (cid, p.2.title)) := by
  intro i ws
  induction ws generalizing i with
  | nil => simp [pushKeptWorkTitles]
  | cons wk rest ih =>
    simp only [pushKeptWorkTitles, List.enumFrom_cons, List.filter_cons]
    cases h : w.workInsertError i <;> simp [h, ih]

theorem pushedWorkUploads_all_ok (w : PushWorld) (cid : String)
    (hr : ∀ p, w.readFileOk p = true) (hs : ∀ b p, w.storageUploadOk b p = true) :
    ∀ ws : List Work,
    pushedWorkUploads w cid ws =
      (ws.filter (fun wk => wk.fileUrl != "")).map
        (fun wk =>
          { bucket := "sheet-music",
            path := "sheets/" ++ cid ++ "_" ++ wk.id ++ "." ++ extOf wk.fileUrl,
            mime := getMimeType (extOf wk.fileUrl) }) := by
  intro ws
  induction ws with
  | nil => simp [pushedWorkUploads]
  | cons wk rest ih =>
    by_cases hf : wk.fileUrl = ""
    · simp [pushedWorkUploads, tryUploadWork, hf, ih]
    · simp [pushedWorkUploads, tryUploadWork, uploadLocalFileToCloud, hf, hr, hs, ih]

theorem pushedRecUploads_all_ok (w : PushWorld) (cid : String)
    (hr : ∀ p, w.readFileOk p = true) (hs : ∀ b p, w.storageUploadOk b p = true) :
    ∀ rs : List Recording,
    pushedRecUploads w cid rs =
      (rs.filter (fun rc => rc.fileUrl != "")).map
        (fun rc =>
          { bucket := "recordings",
            path := "audio/" ++ cid ++ "_" ++ rc.id ++ "." ++ extOf rc.fileUrl,
            mime := getMimeType (extOf rc.fileUrl) }) := by
  intro rs
  induction rs with
  | nil => simp [pushedRecUploads]
  | cons rc rest ih =>
    by_cases hf : rc.fileUrl = ""
    · simp [pushedRecUploads, tryUploadRec, hf, ih]
    · simp [pushedRecUploads, tryUploadRec, uploadLocalFileToCloud, hf, hr, hs, ih]

/-! ## Characterizations of a whole push -/

theorem pushComposerToCloud_err (w : PushWorld) (c : Composer) (st : CloudState) :
    (pushComposerToCloud w c st).err =
      w.composerInsertError.map (fun e => "Failed to push composer: " ++ e) := by
  cases h : w.composerInsertError <;> simp [pushComposerToCloud, h]

theorem pushComposerToCloud_progress (w : PushWorld) (c : Composer)
    (st : CloudState) (h : w.composerInsertError = none) :
    (pushComposerToCloud w c st).progress =
      progressSeq (1 + c.works.length + c.recordings.length) := by
  have harg : ∀ a b : Nat, a = b →
      jsRound100 a (1 + c.works.length + c.recordings.length) =
        jsRound100 b (1 + c.works.length + c.recordings.length) :=
    fun a b hab => by rw [hab]
  simp only [pushComposerToCloud, h]
  rw [pushWorksLoop_progress, pushRecsLoop_progress]
  unfold progressSeq
  rw [List.range_add, List.range_add]
  have h1 : List.range 1 = [0] := rfl
  rw [h1]
  simp only [List.map_append, List.map_map, List.map_cons, List.map_nil,
    List.cons_append, List.nil_append, List.append_assoc]
  refine congrArg₂ List.cons (harg _ _ (by omega)) ?_
  refine congrArg₂ (· ++ ·) ?_ ?_
  · apply List.map_congr_left
    intro a _
    simp only [Function.comp_apply]
    exact harg _ _ (by omega)
  · apply List.map_congr_left
    intro a _
    simp only [Function.comp_apply]
    exact harg _ _ (by omega)

theorem pushComposerToCloud_uploads (w : PushWorld) (c : Composer)
    (st : CloudState) (h : w.composerInsertError = none) :
    (pushComposerToCloud w c st).uploads =
      pushedAvatarUpload w c ++
        pushedWorkUploads w (mintCloudId st.nextId) c.works ++
        pushedRecUploads w (mintCloudId st.nextId) c.recordings := by
  simp only [pushComposerToCloud, h, pushedAvatarUpload]
  rw [pushWorksLoop_uploads, pushRecsLoop_uploads, List.append_assoc]

theorem pushComposerToCloud_state_ok (w : PushWorld) (c : Composer)
    (st : CloudState) (h : w.composerInsertError = none)
    (hw : ∀ j, j < c.works.length → w.workInsertError j = none)
    (hr : ∀ j, j < c.recordings.length → w.recInsertError j = none) :
    (pushComposerToCloud w c st).state =
      { nextId := st.nextId + 1 + c.works.length + c.recordings.length,
        composers := st.composers ++
          [{ id := mintCloudId st.nextId, name := c.name, period := c.period,
             image := (tryUploadAvatar w c).2,
             sheet_music_count := c.works.length,
             recording_count := c.recordings.length }],
        works := st.works ++
          pushedWorkRows w (mintCloudId st.nextId) (st.nextId + 1) c.works,
        recordings := st.recordings ++
          pushedRecRows w (mintCloudId st.nextId) (st.nextId + 1 + c.works.length)
            c.recordings } := by
  have hw0 : ∀ j, j < c.works.length → w.workInsertError (0 + j) = none := by
    intro j hj
    simpa using hw j hj
  have hr0 : ∀ j, j < c.recordings.length → w.recInsertError (0 + j) = none := by
    intro j hj
    simpa using hr j hj
  simp only [pushComposerToCloud, h]
  rw [pushRecsLoop_state_ok w (mintCloudId st.nextId) _ c.recordings 0
    (1 + c.works.length) _ hr0]
  rw [pushWorksLoop_state_ok w (mintCloudId st.nextId) _ c.works 0 1 _ hw0]

/-! ## Behaviour of the pull loops -/

theorem tryDownloadWork_composers (w : PullWorld) (st : LocalState) (wk : Work) :
    ((tryDownloadWork w st wk).1).composers = st.composers := by
  simp only [tryDownloadWork]
  split
  · rfl
  · split <;> rfl

theorem tryDownloadWork_works (w : PullWorld) (st : LocalState) (wk : Work) :
    ((tryDownloadWork w st wk).1).works = st.works := by
  simp only [tryDownloadWork]
  split
  · rfl
  · split <;> rfl

theorem tryDownloadWork_recordings (w : PullWorld) (st : LocalState) (wk : Work) :
    ((tryDownloadWork w st wk).1).recordings = st.recordings := by
  simp only [tryDownloadWork]
  split
  · rfl
  · split <;> rfl

theorem tryDownloadRec_composers (w : PullWorld) (st : LocalState) (rc : Recording) :
    ((tryDownloadRec w st rc).1).composers = st.composers := by
  simp only [tryDownloadRec]
  split
  · rfl
  · split <;> rfl

theorem tryDownloadRec_works (w : PullWorld) (st : LocalState) (rc : Recording) :
    ((tryDownloadRec w st rc).1).works = st.works := by
  simp only [tryDownloadRec]
  split
  · rfl
  · split <;> rfl

theorem tryDownloadRec_recordings (w : PullWorld) (st : LocalState) (rc : Recording) :
    ((tryDownloadRec w st rc).1).recordings = st.recordings := by
  simp only [tryDownloadRec]
  split
  · rfl
  · split <;> rfl

theorem tryDownloadAvatar_composers (w : PullWorld) (st : LocalState) (c : Composer) :
    ((tryDownloadAvatar w st c).1).composers = st.composers := by
  simp only [tryDownloadAvatar]
  split
  · rfl
  · split <;> rfl

theorem tryDownloadAvatar_works (w : PullWorld) (st : LocalState) (c : Composer) :
    ((tryDownloadAvatar w st c).1).works = st.works := by
  simp only [tryDownloadAvatar]
  split
  · rfl
  · split <;> rfl

theorem tryDownloadAvatar_recordings (w : PullWorld) (st : LocalState) (c : Composer) :
    ((tryDownloadAvatar w st c).1).recordings = st.recordings := by
  simp only [tryDownloadAvatar]
  split
  · rfl
  · split <;> rfl

/-- How the full progress sequence of a run with `1 + a + b` steps decomposes
into the composer step, the work steps, and the recording steps. -/
theorem progressSeq_decompose (a b : Nat) :
    progressSeq (1 + a + b) =
      jsRound100 1 (1 + a + b) ::
        ((List.range a).map (fun j => jsRound100 (1 + 1 + j) (1 + a + b)) ++
          (List.range b).map (fun j => jsRound100 (1 + a + 1 + j) (1 + a + b))) := by
  have harg : ∀ x y : Nat, x = y →
      jsRound100 x (1 + a + b) = jsRound100 y (1 + a + b) :=
    fun x y hxy => by rw [hxy]
  unfold progressSeq
  rw [List.range_add, List.range_add]
  have h1 : List.range 1 = [0] := rfl
  rw [h1]
  simp only [List.map_append, List.map_map, List.map_cons, List.map_nil,
    List.cons_append, List.nil_append, List.append_assoc]
  refine congrArg₂ List.cons (harg _ _ (by omega)) ?_
  refine congrArg₂ (· ++ ·) ?_ ?_
  · apply List.map_congr_left
    intro x _
    simp only [Function.comp_apply]
    exact harg _ _ (by omega)
  · apply List.map_congr_left
    intro x _
    simp only [Function.comp_apply]
    exact harg _ _ (by omega)

theorem pullWorksLoop_ok (w : PullWorld) (lid : String) (total : Nat) :
    ∀ (ws : List Work) (idx step : Nat) (st : LocalState),
    (∀ j, j < ws.length → w.workInsertError (idx + j) = none) →
    (pullWorksLoop w lid total ws idx step st).2.2 = none ∧
    (pullWorksLoop w lid total ws idx step st).2.1 =
      (List.range ws.length).map (fun j => jsRound100 (step + 1 + j) total) ∧
    ((pullWorksLoop w lid total ws idx step st).1).composers = st.composers ∧
    ((pullWorksLoop w lid total ws idx step st).1).recordings = st.recordings ∧
    ((pullWorksLoop w lid total ws idx step st).1).works.map
        (fun r => (r.composer_id, r.title, r.edition, r.year)) =
      st.works.map (fun r => (r.composer_id, r.title, r.edition, r.year)) ++
        ws.map (fun wk => (lid, wk.title, wk.edition, wk.year)) ∧
    ((pullWorksLoop w lid total ws idx step st).1).works.map
        (fun r => (r.title, r.edition, r.year)) =
      st.works.map (fun r => (r.title, r.edition, r.year)) ++
        ws.map (fun wk => (wk.title, wk.edition, wk.year)) := by
  intro ws
  induction ws with
  | nil => intro idx step st _; simp [pullWorksLoop]
  | cons wk rest ih =>
    intro idx step st hok
    have h0 : w.workInsertError idx = none := by
      have := hok 0 (by simp)
      simpa using this
    have hok' : ∀ j, j < rest.length → w.workInsertError (idx + 1 + j) = none := by
      intro j hj
      have h := hok (j + 1) (by simp only [List.length_cons]; omega)
      have e : idx + 1 + j = idx + (j + 1) := by omega
      rw [e]
      exact h
    have harg : ∀ x y : Nat, x = y → jsRound100 x total = jsRound100 y total :=
      fun x y hxy => by rw [hxy]
    simp only [pullWorksLoop, h0]
    obtain ⟨e1, e2, e3, e4, e5, e6⟩ := ih (idx + 1) (step + 1)
      ((dbCreateWork (tryDownloadWork w st wk).1 lid wk.title wk.edition wk.year
        (tryDownloadWork w st wk).2).1) hok'
    have hw2 : ((dbCreateWork (tryDownloadWork w st wk).1 lid wk.title wk.edition
        wk.year (tryDownloadWork w st wk).2).1).works =
        st.works ++
          [{ id := mintLocalId ((tryDownloadWork w st wk).1).nextId,
             composer_id := lid, title := wk.title, edition := wk.edition,
             year := wk.year, file_url := (tryDownloadWork w st wk).2 }] := by
      simp only [dbCreateWork]
      rw [tryDownloadWork_works]
    refine ⟨e1, ?_, ?_, ?_, ?_, ?_⟩
    · rw [e2, List.length_cons, List.range_succ_eq_map, List.map_cons,
        List.map_map]
      refine congrArg₂ List.cons (harg _ _ (by omega)) ?_
      apply List.map_congr_left
      intro x _
      simp only [Function.comp_apply, Nat.succ_eq_add_one]
      exact harg _ _ (by omega)
    · rw [e3]
      exact tryDownloadWork_composers w st wk
    · rw [e4]
      exact tryDownloadWork_recordings w st wk
    · rw [e5, hw2]
      simp [List.append_assoc]
    · rw [e6, hw2]
      simp [List.append_assoc]

theorem pullRecsLoop_ok (w : PullWorld) (lid : String) (total : Nat) :
    ∀ (rs : List Recording) (idx step : Nat) (st : LocalState),
    (∀ j, j < rs.length → w.recInsertError (idx + j) = none) →
    (pullRecsLoop w lid total rs idx step st).2.2 = none ∧
    (pullRecsLoop w lid total rs idx step st).2.1 =
      (List.range rs.length).map (fun j => jsRound100 (step + 1 + j) total) ∧
    ((pullRecsLoop w lid total rs idx step st).1).composers = st.composers ∧
    ((pullRecsLoop w lid total rs idx step st).1).works = st.works ∧
    ((pullRecsLoop w lid total rs idx step st).1).recordings.map
        (fun r => (r.composer_id, r.title, r.performer, r.duration, r.year)) =
      st.recordings.map
          (fun r => (r.composer_id, r.title, r.performer, r.duration, r.year)) ++
        rs.map (fun rc => (lid, rc.title, rc.performer, rc.duration, rc.year)) ∧
    ((pullRecsLoop w lid total rs idx step st).1).recordings.map
        (fun r => (r.title, r.performer, r.duration, r.year)) =
      st.recordings.map (fun r => (r.title, r.performer, r.duration, r.year)) ++
        rs.map (fun rc => (rc.title, rc.performer, rc.duration, rc.year)) := by
  intro rs
  induction rs with
  | nil => intro idx step st _; simp [pullRecsLoop]
  | cons rc rest ih =>
    intro idx step st hok
    have h0 : w.recInsertError idx = none := by
      have := hok 0 (by simp)
      simpa using this
    have hok' : ∀ j, j < rest.length → w.recInsertError (idx + 1 + j) = none := by
      intro j hj
      have h := hok (j + 1) (by simp only [List.length_cons]; omega)
      have e : idx + 1 + j = idx + (j + 1) := by omega
      rw [e]
      exact h
    have harg : ∀ x y : Nat, x = y → jsRound100 x total = jsRound100 y total :=
      fun x y hxy => by rw [hxy]
    simp only [pullRecsLoop, h0]
    obtain ⟨e1, e2, e3, e4, e5, e6⟩ := ih (idx + 1) (step + 1)
      ((dbCreateRecording (tryDownloadRec w st rc).1 lid rc.title rc.performer
        rc.duration rc.year (tryDownloadRec w st rc).2).1) hok'
    have hr2 : ((dbCreateRecording (tryDownloadRec w st rc).1 lid rc.title
        rc.performer rc.duration rc.year (tryDownloadRec w st rc).2).1).recordings =
        st.recordings ++
          [{ id := mintLocalId ((tryDownloadRec w st rc).1).nextId,
             composer_id := lid, title := rc.title, performer := rc.performer,
             duration := rc.duration, year := rc.year,
             file_url := (tryDownloadRec w st rc).2 }] := by
      simp only [dbCreateRecording]
      rw [tryDownloadRec_recordings]
    refine ⟨e1, ?_, ?_, ?_, ?_, ?_⟩
    · rw [e2, List.length_cons, List.range_succ_eq_map, List.map_cons,
        List.map_map]
      refine congrArg₂ List.cons (harg _ _ (by omega)) ?_
      apply List.map_congr_left
      intro x _
      simp only [Function.comp_apply, Nat.succ_eq_add_one]
      exact harg _ _ (by omega)
    · rw [e3]
      exact tryDownloadRec_composers w st rc
    · rw [e4]
      exact tryDownloadRec_works w st rc
    · rw [e5, hr2]
      simp [List.append_assoc]
    · rw [e6, hr2]
      simp [List.append_assoc]

theorem pullWorksLoop_err_isSome (w : PullWorld) (lid : String) (total : Nat) :
    ∀ (ws : List Work) (idx step : Nat) (st : LocalState),
    (∃ j, j < ws.length ∧ (w.workInsertError (idx + j)).isSome) →
    ((pullWorksLoop w lid total ws idx step st).2.2).isSome := by
  intro ws
  induction ws with
  | nil =>
    intro idx step st h
    obtain ⟨j, hj, _⟩ := h
    simp at hj
  | cons wk rest ih =>
    intro idx step st h
    cases h0 : w.workInsertError idx with
    | some e => simp [pullWorksLoop, h0]
    | none =>
      obtain ⟨j, hj, hs⟩ := h
      have hj' : ∃ j', j' < rest.length ∧ (w.workInsertError (idx + 1 + j')).isSome := by
        cases j with
        | zero => rw [Nat.add_zero] at hs; rw [h0] at hs; simp at hs
        | succ j' =>
          refine ⟨j', by simp only [List.length_cons] at hj; omega, ?_⟩
          have e : idx + 1 + j' = idx + (j' + 1) := by omega
          rw [e]
          exact hs
      simp only [pullWorksLoop, h0]
      exact ih (idx + 1) (step + 1) _ hj'

theorem pullRecsLoop_err_isSome (w : PullWorld) (lid : String) (total : Nat) :
    ∀ (rs : List Recording) (idx step : Nat) (st : LocalState),
    (∃ j, j < rs.length ∧ (w.recInsertError (idx + j)).isSome) →
    ((pullRecsLoop w lid total rs idx step st).2.2).isSome := by
  intro rs
  induction rs with
  | nil =>
    intro idx step st h
    obtain ⟨j, hj, _⟩ := h
    simp at hj
  | cons rc rest ih =>
    intro idx step st h
    cases h0 : w.recInsertError idx with
    | some e => simp [pullRecsLoop, h0]
    | none =>
      obtain ⟨j, hj, hs⟩ := h
      have hj' : ∃ j', j' < rest.length ∧ (w.recInsertError (idx + 1 + j')).isSome := by
        cases j with
        | zero => rw [Nat.add_zero] at hs; rw [h0] at hs; simp at hs
        | succ j' =>
          refine ⟨j', by simp only [List.length_cons] at hj; omega, ?_⟩
          have e : idx + 1 + j' = idx + (j' + 1) := by omega
          rw [e]
          exact hs
      simp only [pullRecsLoop, h0]
      exact ih (idx + 1) (step + 1) _ hj'

/-! ## Characterizations of a whole pull -/

theorem pullComposerToLocal_fetch_fail (w : PullWorld) (cid : String)
    (cst : CloudState) (lst : LocalState) (e : String)
    (h : getCloudComposer w cst cid = .error e) :
    pullComposerToLocal w cid cst lst =
      { err := some e, state := lst, progress := [], newComposerId := "" } := by
  simp [pullComposerToLocal, h]

theorem pullComposerToLocal_ok (w : PullWorld) (cid : String) (cst : CloudState)
    (lst : LocalState) (c : Composer)
    (hfetch : getCloudComposer w cst cid = .ok c)
    (hw : ∀ j, j < c.works.length → w.workInsertError j = none)
    (hr : ∀ j, j < c.recordings.length → w.recInsertError j = none) :
    (pullComposerToLocal w cid cst lst).err = none ∧
    (pullComposerToLocal w cid cst lst).progress =
      progressSeq (1 + c.works.length + c.recordings.length) ∧
    ((pullComposerToLocal w cid cst lst).state).composers.map
        (fun r => (r.name, r.period)) =
      lst.composers.map (fun r => (r.name, r.period)) ++
        [(c.name ++ " (副本)", c.period)] ∧
    ((pullComposerToLocal w cid cst lst).state).works.map
        (fun r => (r.composer_id, r.title, r.edition, r.year)) =
      lst.works.map (fun r => (r.composer_id, r.title, r.edition, r.year)) ++
        c.works.map (fun wk =>
          ((pullComposerToLocal w cid cst lst).newComposerId,
            wk.title, wk.edition, wk.year)) ∧
    ((pullComposerToLocal w cid cst lst).state).recordings.map
        (fun r => (r.composer_id, r.title, r.performer, r.duration, r.year)) =
      lst.recordings.map
          (fun r => (r.composer_id, r.title, r.performer, r.duration, r.year)) ++
        c.recordings.map (fun rc =>
          ((pullComposerToLocal w cid cst lst).newComposerId,
            rc.title, rc.performer, rc.duration, rc.year)) ∧
    ((pullComposerToLocal w cid cst lst).state).composers.map (fun r => r.name) =
      lst.composers.map (fun r => r.name) ++ [c.name ++ " (副本)"] ∧
    ((pullComposerToLocal w cid cst lst).state).works.map
        (fun r => (r.title, r.edition, r.year)) =
      lst.works.map (fun r => (r.title, r.edition, r.year)) ++
        c.works.map (fun wk => (wk.title, wk.edition, wk.year)) ∧
    ((pullComposerToLocal w cid cst lst).state).recordings.map
        (fun r => (r.title, r.performer, r.duration, r.year)) =
      lst.recordings.map (fun r => (r.title, r.performer, r.duration, r.year)) ++
        c.recordings.map
          (fun rc => (rc.title, rc.performer, rc.duration, rc.year)) := by
  have hw0 : ∀ j, j < c.works.length → w.workInsertError (0 + j) = none := by
    intro j hj
    simpa using hw j hj
  have hr0 : ∀ j, j < c.recordings.length → w.recInsertError (0 + j) = none := by
    intro j hj
    simpa using hr j hj
  obtain ⟨e1, e2, e3, e4, e5, e6⟩ := pullWorksLoop_ok w
    ((dbCreateComposer (tryDownloadAvatar w lst c).1 (c.name ++ " (副本)") c.period
      (tryDownloadAvatar w lst c).2).2).id
    (1 + c.works.length + c.recordings.length) c.works 0 1
    ((dbCreateComposer (tryDownloadAvatar w lst c).1 (c.name ++ " (副本)") c.period
      (tryDownloadAvatar w lst c).2).1) hw0
  obtain ⟨f1, f2, f3, f4, f5, f6⟩ := pullRecsLoop_ok w
    ((dbCreateComposer (tryDownloadAvatar w lst c).1 (c.name ++ " (副本)") c.period
      (tryDownloadAvatar w lst c).2).2).id
    (1 + c.works.length + c.recordings.length) c.recordings 0 (1 + c.works.length)
    ((pullWorksLoop w
      ((dbCreateComposer (tryDownloadAvatar w lst c).1 (c.name ++ " (副本)") c.period
        (tryDownloadAvatar w lst c).2).2).id
      (1 + c.works.length + c.recordings.length) c.works 0 1
      ((dbCreateComposer (tryDownloadAvatar w lst c).1 (c.name ++ " (副本)") c.period
        (tryDownloadAvatar w lst c).2).1)).1) hr0
  simp only [pullComposerToLocal, hfetch, e1]
  refine ⟨f1, ?_, ?_, ?_, ?_, ?_, ?_, ?_⟩
  · rw [e2, f2, progressSeq_decompose c.works.length c.recordings.length]
  · rw [f3, e3]
    simp only [dbCreateComposer]
    rw [tryDownloadAvatar_composers]
    simp
  · rw [f4, e5]
    simp only [dbCreateComposer]
    rw [tryDownloadAvatar_works]
  · rw [f5, e4]
    simp only [dbCreateComposer]
    rw [tryDownloadAvatar_recordings]
  · rw [f3, e3]
    simp only [dbCreateComposer]
    rw [tryDownloadAvatar_composers]
    simp
  · rw [f4, e6]
    simp only [dbCreateComposer]
    rw [tryDownloadAvatar_works]
  · rw [f6, e4]
    simp only [dbCreateComposer]
    rw [tryDownloadAvatar_recordings]

theorem pullComposerToLocal_work_insert_fail (w : PullWorld) (cid : String)
    (cst : CloudState) (lst : LocalState) (c : Composer)
    (hf : getCloudComposer w cst cid = .ok c)
    (h : ∃ j, j < c.works.length ∧ (w.workInsertError j).isSome) :
    ((pullComposerToLocal w cid cst lst).err).isSome := by
  obtain ⟨j, hj, hs⟩ := h
  have hws := pullWorksLoop_err_isSome w
    ((dbCreateComposer (tryDownloadAvatar w lst c).1 (c.name ++ " (副本)") c.period
      (tryDownloadAvatar w lst c).2).2).id
    (1 + c.works.length + c.recordings.length) c.works 0 1
    ((dbCreateComposer (tryDownloadAvatar w lst c).1 (c.name ++ " (副本)") c.period
      (tryDownloadAvatar w lst c).2).1)
    ⟨j, hj, by simpa using hs⟩
  simp only [pullComposerToLocal, hf]
  obtain ⟨e, he⟩ := Option.isSome_iff_exists.mp hws
  rw [he]
  simp

theorem pullComposerToLocal_rec_insert_fail (w : PullWorld) (cid : String)
    (cst : CloudState) (lst : LocalState) (c : Composer)
    (hf : getCloudComposer w cst cid = .ok c)
    (hwok : ∀ j, j < c.works.length → w.workInsertError j = none)
    (h : ∃ j, j < c.recordings.length ∧ (w.recInsertError j).isSome) :
    ((pullComposerToLocal w cid cst lst).err).isSome := by
  obtain ⟨j, hj, hs⟩ := h
  have hw0 : ∀ j', j' < c.works.length → w.workInsertError (0 + j') = none := by
    intro j' hj'
    simpa using hwok j' hj'
  obtain ⟨e1, _, _, _, _, _⟩ := pullWorksLoop_ok w
    ((dbCreateComposer (tryDownloadAvatar w lst c).1 (c.name ++ " (副本)") c.period
      (tryDownloadAvatar w lst c).2).2).id
    (1 + c.works.length + c.recordings.length) c.works 0 1
    ((dbCreateComposer (tryDownloadAvatar w lst c).1 (c.name ++ " (副本)") c.period
      (tryDownloadAvatar w lst c).2).1) hw0
  simp only [pullComposerToLocal, hf, e1]
  exact pullRecsLoop_err_isSome w _ _ c.recordings 0 (1 + c.works.length) _
    ⟨j, hj, by simpa using hs⟩

theorem pushComposerToCloud_newComposerId (w : PushWorld) (c : Composer)
    (st : CloudState) (h : w.composerInsertError = none) :
    (pushComposerToCloud w c st).newComposerId = mintCloudId st.nextId := by
  simp [pushComposerToCloud, h]

theorem pushedAvatarUpload_all_ok (w : PushWorld) (c : Composer)
    (hr : ∀ p, w.readFileOk p = true) (hs : ∀ b p, w.storageUploadOk b p = true) :
    pushedAvatarUpload w c =
      if c.image = "" then []
      else
        [{ bucket := "avatars", path := "composers/" ++ c.id ++ "." ++ extOf c.image,
           mime := getMimeType (extOf c.image) }] := by
  unfold pushedAvatarUpload tryUploadAvatar
  by_cases himg : c.image = ""
  · simp [himg]
  · simp [himg, uploadLocalFileToCloud, hr, hs]

theorem pushedWorkRows_map_tey (w : PushWorld) (cid : String) :
    ∀ (n : Nat) (ws : List Work),
    (pushedWorkRows w cid n ws).map (fun r => (r.title, r.edition, r.year)) =
      ws.map (fun wk => (wk.title, wk.edition, wk.year)) := by
  intro n ws
  induction ws generalizing n with
  | nil => simp [pushedWorkRows]
  | cons wk rest ih => simp [pushedWorkRows, ih]

theorem pushedRecRows_map_tpdy (w : PushWorld) (cid : String) :
    ∀ (n : Nat) (rs : List Recording),
    (pushedRecRows w cid n rs).map
        (fun r => (r.title, r.performer, r.duration, r.year)) =
      rs.map (fun rc => (rc.title, rc.performer, rc.duration, rc.year)) := by
  intro n rs
  induction rs generalizing n with
  | nil => simp [pushedRecRows]
  | cons rc rest ih => simp [pushedRecRows, ih]

/-! ## Concrete fixtures used by witnesses and counterexamples -/

/-- A push world in which the remote composer insert fails in-band. -/
def badComposerInsertWorld : PushWorld :=
  { okPushWorld with composerInsertError := some "db down" }

/-- A push world in which every local file read fails (missing assets). -/
def readFailWorld : PushWorld :=
  { okPushWorld with readFileOk := fun _ => false }

/-- A pull world whose remote composer query fails. -/
def noFetchPullWorld : PullWorld :=
  { okPullWorld with composerQueryOk := false }

/-- A push world where the first remote work insert fails in-band. -/
def workInsertFailPushWorld : PushWorld :=
  { okPushWorld with workInsertError := fun i => if i = 0 then some "dup" else none }

/-- A pull world where the first `dbCreateWork` call throws. -/
def workInsertFailPullWorld : PullWorld :=
  { okPullWorld with workInsertError := fun i => if i = 0 then some "disk full" else none }

/-- A small source composer: no works, no recordings, no avatar. -/
def cxBareComposer : Composer :=
  { id := "c-src", name := "Nielsen", period := "Romantic", image := "",
    works := [], recordings := [] }

/-- A source work with an asset reference. -/
def cxSrcWorkA : Work :=
  { id := "src-w-AAA", composerId := "c-src", title := "Sonata", edition := "Urtext",
    year := "1900", fileUrl := "score.pdf" }

/-- The same work with a different SOURCE id. -/
def cxSrcWorkB : Work := { cxSrcWorkA with id := "src-w-BBB" }

/-- A composer carrying `cxSrcWorkA` and an avatar. -/
def cxPushA : Composer :=
  { id := "c-src", name := "Nielsen", period := "Romantic", image := "face.png",
    works := [cxSrcWorkA], recordings := [] }

/-- `cxPushA` with the work's source id changed, all else equal. -/
def cxPushB : Composer := { cxPushA with works := [cxSrcWorkB] }

/-- A remote store holding one composer with two works. -/
def cxCloudState : CloudState :=
  { nextId := 7,
    composers := [{ id := "cc1", name := "Bach", period := "Baroque", image := "",
                    sheet_music_count := 2, recording_count := 0 }],
    works := [{ id := "cw1", composer_id := "cc1", title := "Invention",
                edition := "", year := "", file_url := "" },
              { id := "cw2", composer_id := "cc1", title := "Fugue",
                edition := "", year := "", file_url := "" }],
    recordings := [] }

/-- The composer `getCloudComposer` reads back from `cxCloudState`. -/
def cxCloudComposer : Composer :=
  { id := "cc1", name := "Bach", period := "Baroque", image := "",
    works := [{ id := "cw1", composerId := "cc1", title := "Invention",
                edition := "", year := "", fileUrl := "" },
              { id := "cw2", composerId := "cc1", title := "Fugue",
                edition := "", year := "", fileUrl := "" }],
    recordings := [] }

/-- A composer with 100 works and no recordings: 101 counted steps. -/
def cxBigComposer : Composer :=
  { id := "big", name := "Telemann", period := "", image := "",
    works := List.replicate 100
      { id := "w", composerId := "big", title := "t", edition := "", year := "",
        fileUrl := "" },
    recordings := [] }

/-- A stored local work row used by the update fixtures. -/
def cxWorkRow : LocalWorkRow :=
  { id := "w1", composer_id := "c1", title := "Sonata", edition := "First",
    year := "1900", file_url := "f.pdf" }

/-- A local store holding `cxWorkRow`, one composer row and one recording row. -/
def cxUpdState : LocalState :=
  { nextId := 9,
    composers := [{ id := "c1", name := "Grieg", period := "Romantic",
                    image := "img.png" }],
    works := [cxWorkRow],
    recordings := [{ id := "r1", composer_id := "c1", title := "Live",
                     performer := "Trio", duration := "3:10", year := "1950",
                     file_url := "a.mp3" }] }

/-! ## Claim theorems -/

/-- Claim C9 (confirmed): for every local→remote upload the content type is
inferred from the file extension of the local path by the fixed table, and any
extension outside the table maps to `application/octet-stream`.  The first
conjunct checks each table row of `getMimeType`; the second settles every
unknown extension; the third ties the inference to `uploadLocalFileToCloud`:
whenever an upload succeeds, the content type it used is
`getMimeType (extOf localPath)`. -/
theorem mime_type_inference :
    (getMimeType "pdf" = "application/pdf" ∧ getMimeType "jpg" = "image/jpeg" ∧
      getMimeType "jpeg" = "image/jpeg" ∧ getMimeType "png" = "image/png" ∧
      getMimeType "webp" = "image/webp" ∧ getMimeType "mp3" = "audio/mpeg" ∧
      getMimeType "wav" = "audio/wav" ∧ getMimeType "m4a" = "audio/mp4" ∧
      getMimeType "ogg" = "audio/ogg") ∧
    (∀ ext : String, ext ≠ "pdf" → ext ≠ "jpg" → ext ≠ "jpeg" → ext ≠ "png" →
      ext ≠ "webp" → ext ≠ "mp3" → ext ≠ "wav" → ext ≠ "m4a" → ext ≠ "ogg" →
      getMimeType ext = "application/octet-stream") ∧
    (∀ (w : PushWorld) (p b rp : String) (ev : UploadEvent) (url : String),
      uploadLocalFileToCloud w p b rp = .ok (ev, url) →
      ev.mime = getMimeType (extOf p)) := by
  refine ⟨⟨rfl, rfl, rfl, rfl, rfl, rfl, rfl, rfl, rfl⟩, ?_, ?_⟩
  · intro ext h1 h2 h3 h4 h5 h6 h7 h8 h9
    simp [getMimeType, h1, h2, h3, h4, h5, h6, h7, h8, h9]
  · intro w p b rp ev url h
    by_cases hr : w.readFileOk p
    · by_cases hs : w.storageUploadOk b (rp ++ "." ++ extOf p)
      · simp only [uploadLocalFileToCloud, hr, hs, not_true, if_false, if_true,
          ite_true, ite_false, Except.ok.injEq, Prod.mk.injEq] at h
        rw [← h.1]
      · simp [uploadLocalFileToCloud, hr, hs] at h
    · simp [uploadLocalFileToCloud, hr] at h

/-- Witness for C9: the unknown extension `xyz` maps to the octet-stream
default, and a successful concrete upload of `cover.png` used content type
`getMimeType (extOf "cover.png") = image/png`. -/
theorem mime_type_inference_witness :
    getMimeType "xyz" = "application/octet-stream" ∧
    ({ bucket := "avatars", path := "composers/c1.png",
       mime := "image/png" } : UploadEvent).mime = getMimeType (extOf "cover.png") :=
  ⟨mime_type_inference.2.1 "xyz" (by decide) (by decide) (by decide) (by decide)
      (by decide) (by decide) (by decide) (by decide) (by decide),
    mime_type_inference.2.2 okPushWorld "cover.png" "avatars" "composers/c1"
      { bucket := "avatars", path := "composers/c1.png", mime := "image/png" }
      "https://storage/avatars/composers/c1.png" (by rfl)⟩

/-- Claim C3 (corrected): the source THROWS when the destination Composer
record insert fails (`if (composerError || !cloudComposer) throw …`), so a
store write failure at the composer step does surface as a rejection.  What
holds instead: a push rejects exactly when the composer insert fails; per-item
Work/Recording insert failures and asset upload failures never reject. -/
theorem push_rejects_iff_composer_insert_fails (w : PushWorld) (c : Composer)
    (st : CloudState) :
    ((pushComposerToCloud w c st).err).isSome = w.composerInsertError.isSome := by
  rw [pushComposerToCloud_err]
  cases w.composerInsertError <;> rfl

/-- Counterexample for C3: in a world where only the composer insert fails,
`pushComposerToCloud` rejects with the wrapped error — the claim's "does not
cause the call to reject" is false at this input. -/
theorem push_composer_insert_failure_rejects_cx :
    (pushComposerToCloud badComposerInsertWorld cxBareComposer emptyCloud).err =
      some "Failed to push composer: db down" := rfl

/-- Claim C10 (confirmed): `localApi.deleteComposer` always issues the database
delete with its cascade, for EVERY outcome of the file-system world — failures
of `dbGetComposer` or of any file deletion are caught and never reach the
caller (`err = none`) nor prevent the record deletion: afterwards no composer
row with the deleted id and no child row referencing it remains. -/
theorem delete_composer_always_deletes_record (w : DeleteWorld) (st : LocalState)
    (id : String) :
    (localApiDeleteComposer w st id).err = none ∧
    (localApiDeleteComposer w st id).state = dbDeleteComposer st id ∧
    ((localApiDeleteComposer w st id).state).composers.find?
        (fun r => r.id == id) = none ∧
    ((localApiDeleteComposer w st id).state).works.find?
        (fun r => r.composer_id == id) = none ∧
    ((localApiDeleteComposer w st id).state).recordings.find?
        (fun r => r.composer_id == id) = none := by
  refine ⟨rfl, rfl, ?_, ?_, ?_⟩
  · rw [show (localApiDeleteComposer w st id).state = dbDeleteComposer st id from rfl]
    simp only [dbDeleteComposer]
    rw [List.find?_eq_none]
    intro x hx
    have hx2 := (List.mem_filter.mp hx).2
    simp only [Bool.not_eq_true'] at hx2
    simp [hx2]
  · rw [show (localApiDeleteComposer w st id).state = dbDeleteComposer st id from rfl]
    simp only [dbDeleteComposer]
    rw [List.find?_eq_none]
    intro x hx
    have hx2 := (List.mem_filter.mp hx).2
    simp only [Bool.not_eq_true'] at hx2
    simp [hx2]
  · rw [show (localApiDeleteComposer w st id).state = dbDeleteComposer st id from rfl]
    simp only [dbDeleteComposer]
    rw [List.find?_eq_none]
    intro x hx
    have hx2 := (List.mem_filter.mp hx).2
    simp only [Bool.not_eq_true'] at hx2
    simp [hx2]

/-- Claim C5 (confirmed): when the initial remote-subtree fetch fails, the pull
rejects and the progress callback is never invoked; on the success path the
fetch is not a counted step — `totalSteps` (and the exact number of callback
invocations) is `1 + |works| + |recordings|` of the fetched composer. -/
theorem pull_prefetch_failure_silent_and_uncounted :
    (∀ (w : PullWorld) (cid : String) (cst : CloudState) (lst : LocalState)
        (e : String),
      getCloudComposer w cst cid = .error e →
      (pullComposerToLocal w cid cst lst).err = some e ∧
      (pullComposerToLocal w cid cst lst).progress = []) ∧
    (∀ (w : PullWorld) (cid : String) (cst : CloudState) (lst : LocalState)
        (c : Composer),
      getCloudComposer w cst cid = .ok c →
      (∀ j, j < c.works.length → w.workInsertError j = none) →
      (∀ j, j < c.recordings.length → w.recInsertError j = none) →
      (pullComposerToLocal w cid cst lst).progress.length =
        1 + c.works.length + c.recordings.length) := by
  constructor
  · intro w cid cst lst e h
    rw [pullComposerToLocal_fetch_fail w cid cst lst e h]
    exact ⟨rfl, rfl⟩
  · intro w cid cst lst c hf hw hr
    obtain ⟨_, hp, _, _, _, _, _, _⟩ := pullComposerToLocal_ok w cid cst lst c hf hw hr
    rw [hp, progressSeq_length]

/-- Witness for C5: a failing composer query on a concrete store rejects with
no progress, and a successful pull of a composer with two works and zero
recordings reports exactly `1 + 2 + 0` times. -/
theorem pull_prefetch_failure_witness :
    ((pullComposerToLocal noFetchPullWorld "cc1" cxCloudState emptyLocal).err =
        some "Cloud composer not found: query failed" ∧
      (pullComposerToLocal noFetchPullWorld "cc1" cxCloudState emptyLocal).progress =
        []) ∧
    (pullComposerToLocal okPullWorld "cc1" cxCloudState emptyLocal).progress.length =
      1 + cxCloudComposer.works.length + cxCloudComposer.recordings.length :=
  ⟨pull_prefetch_failure_silent_and_uncounted.1 noFetchPullWorld "cc1" cxCloudState
      emptyLocal "Cloud composer not found: query failed" (by rfl),
    pull_prefetch_failure_silent_and_uncounted.2 okPullWorld "cc1" cxCloudState
      emptyLocal cxCloudComposer (by rfl) (fun _ _ => rfl) (fun _ _ => rfl)⟩

/-- Claim C1 (corrected): the callback runs exactly `1 + w + r` times with
values in `[0, 100]` ending at 100, and the sequence is non-decreasing — but it
is STRICTLY increasing only when `1 + w + r ≤ 100`; with more than 100 counted
steps `Math.round(100·k/n)` must repeat a value.  Both the push and the pull
(after a successful pre-fetch, with no pull-side insert failure, which would
abort the call) are covered. -/
theorem push_pull_progress_profile :
    (∀ (w : PushWorld) (c : Composer) (st : CloudState),
      w.composerInsertError = none →
      (pushComposerToCloud w c st).progress.length =
          1 + c.works.length + c.recordings.length ∧
      (pushComposerToCloud w c st).progress.getLast? = some 100 ∧
      (∀ x ∈ (pushComposerToCloud w c st).progress, x ≤ 100) ∧
      (pushComposerToCloud w c st).progress.Pairwise (· ≤ ·) ∧
      (1 + c.works.length + c.recordings.length ≤ 100 →
        (pushComposerToCloud w c st).progress.Pairwise (· < ·))) ∧
    (∀ (w : PullWorld) (cid : String) (cst : CloudState) (lst : LocalState)
        (c : Composer),
      getCloudComposer w cst cid = .ok c →
      (∀ j, j < c.works.length → w.workInsertError j = none) →
      (∀ j, j < c.recordings.length → w.recInsertError j = none) →
      (pullComposerToLocal w cid cst lst).progress.length =
          1 + c.works.length + c.recordings.length ∧
      (pullComposerToLocal w cid cst lst).progress.getLast? = some 100 ∧
      (∀ x ∈ (pullComposerToLocal w cid cst lst).progress, x ≤ 100) ∧
      (pullComposerToLocal w cid cst lst).progress.Pairwise (· ≤ ·) ∧
      (1 + c.works.length + c.recordings.length ≤ 100 →
        (pullComposerToLocal w cid cst lst).progress.Pairwise (· < ·))) := by
  constructor
  · intro w c st h
    rw [pushComposerToCloud_progress w c st h]
    exact ⟨progressSeq_length _, progressSeq_getLast _ (by omega),
      fun x hx => progressSeq_mem_le _ hx, progressSeq_pairwise_le _,
      fun hle => progressSeq_pairwise_lt _ (by omega) hle⟩
  · intro w cid cst lst c hf hw hr
    obtain ⟨_, hp, _, _, _, _, _, _⟩ := pullComposerToLocal_ok w cid cst lst c hf hw hr
    rw [hp]
    exact ⟨progressSeq_length _, progressSeq_getLast _ (by omega),
      fun x hx => progressSeq_mem_le _ hx, progressSeq_pairwise_le _,
      fun hle => progressSeq_pairwise_lt _ (by omega) hle⟩

/-- Witness for C1: a concrete push of one work reports twice, and a concrete
pull terminates at 100. -/
theorem push_pull_progress_profile_witness :
    (pushComposerToCloud okPushWorld cxPushA emptyCloud).progress.length =
        1 + cxPushA.works.length + cxPushA.recordings.length ∧
    (pullComposerToLocal okPullWorld "cc1" cxCloudState emptyLocal).progress.getLast? =
      some 100 :=
  ⟨(push_pull_progress_profile.1 okPushWorld cxPushA emptyCloud rfl).1,
    (push_pull_progress_profile.2 okPullWorld "cc1" cxCloudState emptyLocal
        cxCloudComposer (by rfl) (fun _ _ => rfl) (fun _ _ => rfl)).2.1⟩

set_option maxRecDepth 8000 in
/-- Counterexample for C1: a fully successful push of a composer with 100 works
(101 counted steps) yields a progress sequence that is NOT strictly
increasing — `Math.round(100·50/101)` and `Math.round(100·51/101)` are both
50 — refuting the claim's "strictly increasing sequence" for every composer. -/
theorem push_progress_not_strictly_increasing_cx :
    (pushComposerToCloud okPushWorld cxBigComposer emptyCloud).err = none ∧
    ¬ (pushComposerToCloud okPushWorld cxBigComposer emptyCloud).progress.Pairwise
        (· < ·) := by
  constructor
  · rfl
  · decide

/-- Claim C2 (corrected): during PUSH a single per-item insert failure is only
logged: the call does not reject, every step still reports progress, and the
destination `works` table receives exactly the items whose insert succeeded
(in order, under the new composer id).  During PULL the claim fails: the
per-item `dbCreateWork` / `dbCreateRecording` calls are not guarded, so a
single insert failure rejects the whole call. -/
theorem push_item_insert_failure_isolated :
    (∀ (w : PushWorld) (c : Composer) (st : CloudState),
      w.composerInsertError = none →
      (pushComposerToCloud w c st).err = none ∧
      (pushComposerToCloud w c st).progress.length =
        1 + c.works.length + c.recordings.length ∧
      ((pushComposerToCloud w c st).state).works.map
          (fun r => (r.composer_id, r.title)) =
        st.works.map (fun r => (r.composer_id, r.title)) ++
          ((c.works.enumFrom 0).filter
              (fun p => (w.workInsertError p.1).isNone)).map
            (fun p => (mintCloudId st.nextId, p.2.title))) ∧
    (∀ (w : PullWorld) (cid : String) (cst : CloudState) (lst : LocalState)
        (c : Composer),
      getCloudComposer w cst cid = .ok c →
      ((∃ j, j < c.works.length ∧ (w.workInsertError j).isSome) →
        ((pullComposerToLocal w cid cst lst).err).isSome) ∧
      ((∀ j, j < c.works.length → w.workInsertError j = none) →
        (∃ j, j < c.recordings.length ∧ (w.recInsertError j).isSome) →
        ((pullComposerToLocal w cid cst lst).err).isSome)) := by
  constructor
  · intro w c st h
    refine ⟨?_, ?_, ?_⟩
    · rw [pushComposerToCloud_err, h]
      rfl
    · rw [pushComposerToCloud_progress w c st h, progressSeq_length]
    · simp only [pushComposerToCloud, h]
      rw [pushRecsLoop_works, pushWorksLoop_works_titles, pushKeptWorkTitles_eq]
  · intro w cid cst lst c hf
    exact ⟨fun h => pullComposerToLocal_work_insert_fail w cid cst lst c hf h,
      fun hwok h => pullComposerToLocal_rec_insert_fail w cid cst lst c hf hwok h⟩

/-- Witness for C2: a push whose first work insert fails still resolves, and a
pull whose first work insert throws rejects. -/
theorem push_item_insert_failure_isolated_witness :
    (pushComposerToCloud workInsertFailPushWorld cxCloudComposer emptyCloud).err =
      none ∧
    ((pullComposerToLocal workInsertFailPullWorld "cc1" cxCloudState
        emptyLocal).err).isSome :=
  ⟨(push_item_insert_failure_isolated.1 workInsertFailPushWorld cxCloudComposer
      emptyCloud rfl).1,
    (push_item_insert_failure_isolated.2 workInsertFailPullWorld "cc1" cxCloudState
        emptyLocal cxCloudComposer (by rfl)).1 ⟨0, by decide, by rfl⟩⟩

/-- Counterexample for C2: pulling a remote composer with two works in a world
where the first `dbCreateWork` throws REJECTS the call and the remaining work
is never inserted — the insert failure is not isolated on the pull side. -/
theorem pull_insert_failure_rejects_cx :
    (pullComposerToLocal workInsertFailPullWorld "cc1" cxCloudState emptyLocal).err =
      some "dbCreateWork failed: disk full" ∧
    ((pullComposerToLocal workInsertFailPullWorld "cc1" cxCloudState
        emptyLocal).state).works = [] :=
  ⟨rfl, rfl⟩

/-- Claim C4 (confirmed): when an asset transcode fails during push — the
read of the local file failing covers the "asset deleted out-of-band" case —
the entity is still inserted with an empty asset reference and the call does
not reject: the k-th destination work row carries `file_url = ""` whenever the
k-th source work's file read fails, and the inserted composer row carries
`image = ""` when the avatar read fails. -/
theorem push_failed_transcode_inserts_empty_reference (w : PushWorld)
    (c : Composer) (st : CloudState)
    (hcomp : w.composerInsertError = none)
    (hw : ∀ j, j < c.works.length → w.workInsertError j = none)
    (hr : ∀ j, j < c.recordings.length → w.recInsertError j = none) :
    (pushComposerToCloud w c st).err = none ∧
    (∀ (k : Nat) (wk : Work), c.works[k]? = some wk →
      w.readFileOk wk.fileUrl = false →
      (((pushComposerToCloud w c st).state).works.map
          (fun r => r.file_url))[st.works.length + k]? = some "") ∧
    (c.image ≠ "" → w.readFileOk c.image = false →
      (((pushComposerToCloud w c st).state).composers.map
          (fun r => r.image)).getLast? = some "") := by
  have hst := pushComposerToCloud_state_ok w c st hcomp hw hr
  refine ⟨?_, ?_, ?_⟩
  · rw [pushComposerToCloud_err, hcomp]
    rfl
  · intro k wk hk hread
    rw [hst]
    simp only [List.map_append]
    rw [List.getElem?_append_right (by simp), pushedWorkRows_map_fileUrl]
    simp only [List.length_map, Nat.add_sub_cancel_left]
    rw [List.getElem?_map, hk]
    simp only [Option.map_some']
    unfold pushedUrl tryUploadWork
    by_cases hf : wk.fileUrl = ""
    · simp [hf]
    · simp [hf, uploadLocalFileToCloud, hread]
  · intro himg hread
    rw [hst]
    simp only [List.map_append, List.map_cons, List.map_nil]
    rw [List.getLast?_concat]
    unfold tryUploadAvatar
    simp [himg, uploadLocalFileToCloud, hread]

/-- Witness for C4: with every local read failing, pushing a composer holding
one work with an asset and an avatar resolves, the work row lands with empty
`file_url`, the composer row with empty `image`. -/
theorem push_failed_transcode_witness :
    (pushComposerToCloud readFailWorld cxPushA emptyCloud).err = none ∧
    (((pushComposerToCloud readFailWorld cxPushA emptyCloud).state).works.map
        (fun r => r.file_url))[emptyCloud.works.length + 0]? = some "" ∧
    (((pushComposerToCloud readFailWorld cxPushA emptyCloud).state).composers.map
        (fun r => r.image)).getLast? = some "" :=
  ⟨(push_failed_transcode_inserts_empty_reference readFailWorld cxPushA emptyCloud
      rfl (fun _ _ => rfl) (fun _ _ => rfl)).1,
    (push_failed_transcode_inserts_empty_reference readFailWorld cxPushA emptyCloud
      rfl (fun _ _ => rfl) (fun _ _ => rfl)).2.1 0 cxSrcWorkA (by rfl) rfl,
    (push_failed_transcode_inserts_empty_reference readFailWorld cxPushA emptyCloud
      rfl (fun _ _ => rfl) (fun _ _ => rfl)).2.2 (by decide) rfl⟩

/-- Claim C8 (corrected): the remote storage key of a pushed Work or Recording
asset is `sheets/…` (resp. `audio/…`) built from the DESTINATION composer id
and the SOURCE work/recording id — the destination Work/Recording row does not
even exist when the upload runs — and the avatar key `composers/…` uses the
SOURCE composer id.  What is true of the second half of the claim: destination
row ids are minted fresh by the destination store, independent of every source
id. -/
theorem push_upload_keys_characterization (c : Composer) (st : CloudState) :
    (pushComposerToCloud okPushWorld c st).uploads =
      (if c.image = "" then []
       else
         [{ bucket := "avatars",
            path := "composers/" ++ c.id ++ "." ++ extOf c.image,
            mime := getMimeType (extOf c.image) }]) ++
        (c.works.filter (fun wk => wk.fileUrl != "")).map
          (fun wk =>
            { bucket := "sheet-music",
              path := "sheets/" ++ mintCloudId st.nextId ++ "_" ++ wk.id ++ "." ++
                extOf wk.fileUrl,
              mime := getMimeType (extOf wk.fileUrl) }) ++
        (c.recordings.filter (fun rc => rc.fileUrl != "")).map
          (fun rc =>
            { bucket := "recordings",
              path := "audio/" ++ mintCloudId st.nextId ++ "_" ++ rc.id ++ "." ++
                extOf rc.fileUrl,
              mime := getMimeType (extOf rc.fileUrl) }) ∧
    ((pushComposerToCloud okPushWorld c st).state).works.map (fun r => r.id) =
      st.works.map (fun r => r.id) ++
        (List.range c.works.length).map (fun i => mintCloudId (st.nextId + 1 + i)) := by
  constructor
  · rw [pushComposerToCloud_uploads okPushWorld c st rfl,
      pushedAvatarUpload_all_ok okPushWorld c (fun _ => rfl) (fun _ _ => rfl),
      pushedWorkUploads_all_ok okPushWorld (mintCloudId st.nextId) (fun _ => rfl)
        (fun _ _ => rfl),
      pushedRecUploads_all_ok okPushWorld (mintCloudId st.nextId) (fun _ => rfl)
        (fun _ _ => rfl)]
  · rw [pushComposerToCloud_state_ok okPushWorld c st rfl (fun _ _ => rfl)
      (fun _ _ => rfl)]
    simp only [List.map_append]
    rw [pushedWorkRows_map_id]

set_option maxRecDepth 8000 in
/-- Counterexample for C8: two pushes of composers identical except for the
SOURCE work id produce different storage keys (`sheets/cloud-0_src-w-AAA.pdf`
vs `sheets/cloud-0_src-w-BBB.pdf`) while the destination work row id is
`cloud-1` in both — the key is derived from the source work id, refuting
"never from the source entity's id". -/
theorem push_upload_key_uses_source_work_id_cx :
    (pushComposerToCloud okPushWorld cxPushA emptyCloud).uploads =
      [{ bucket := "avatars", path := "composers/c-src.png", mime := "image/png" },
       { bucket := "sheet-music", path := "sheets/cloud-0_src-w-AAA.pdf",
         mime := "application/pdf" }] ∧
    (pushComposerToCloud okPushWorld cxPushB emptyCloud).uploads =
      [{ bucket := "avatars", path := "composers/c-src.png", mime := "image/png" },
       { bucket := "sheet-music", path := "sheets/cloud-0_src-w-BBB.pdf",
         mime := "application/pdf" }] ∧
    ((pushComposerToCloud okPushWorld cxPushA emptyCloud).state).works.map
        (fun r => r.id) = ["cloud-1"] ∧
    ((pushComposerToCloud okPushWorld cxPushB emptyCloud).state).works.map
        (fun r => r.id) = ["cloud-1"] := by
  refine ⟨?_, ?_, ?_, ?_⟩ <;> decide

/-- Claim C6 (confirmed): pushing a local Composer into an empty remote store
and pulling it straight back into an empty local store yields exactly one new
local Composer whose name is the original name with the copy suffix
`" (副本)"`, whose Works preserve title, edition and year, and whose
Recordings preserve title, performer, duration and year, in source order
(asset bytes excluded from entity equality). -/
theorem push_pull_round_trip (c : Composer) :
    (pushComposerToCloud okPushWorld c emptyCloud).err = none ∧
    (pullComposerToLocal okPullWorld
        (pushComposerToCloud okPushWorld c emptyCloud).newComposerId
        (pushComposerToCloud okPushWorld c emptyCloud).state emptyLocal).err =
      none ∧
    ((pullComposerToLocal okPullWorld
        (pushComposerToCloud okPushWorld c emptyCloud).newComposerId
        (pushComposerToCloud okPushWorld c emptyCloud).state
        emptyLocal).state).composers.map (fun r => r.name) =
      [c.name ++ " (副本)"] ∧
    ((pullComposerToLocal okPullWorld
        (pushComposerToCloud okPushWorld c emptyCloud).newComposerId
        (pushComposerToCloud okPushWorld c emptyCloud).state
        emptyLocal).state).works.map (fun r => (r.title, r.edition, r.year)) =
      c.works.map (fun wk => (wk.title, wk.edition, wk.year)) ∧
    ((pullComposerToLocal okPullWorld
        (pushComposerToCloud okPushWorld c emptyCloud).newComposerId
        (pushComposerToCloud okPushWorld c emptyCloud).state
        emptyLocal).state).recordings.map
        (fun r => (r.title, r.performer, r.duration, r.year)) =
      c.recordings.map (fun rc => (rc.title, rc.performer, rc.duration, rc.year)) := by
  have hstate := pushComposerToCloud_state_ok okPushWorld c emptyCloud rfl
    (fun _ _ => rfl) (fun _ _ => rfl)
  have hnew := pushComposerToCloud_newComposerId okPushWorld c emptyCloud rfl
  have hfilterW : (pushedWorkRows okPushWorld (mintCloudId emptyCloud.nextId)
      (emptyCloud.nextId + 1) c.works).filter
        (fun r => r.composer_id == mintCloudId emptyCloud.nextId) =
      pushedWorkRows okPushWorld (mintCloudId emptyCloud.nextId)
        (emptyCloud.nextId + 1) c.works := by
    apply List.filter_eq_self.mpr
    intro r hr
    have hcid := pushedWorkRows_composer_id okPushWorld
      (mintCloudId emptyCloud.nextId) (emptyCloud.nextId + 1) c.works r hr
    rw [hcid]
    simp
  have hfilterR : (pushedRecRows okPushWorld (mintCloudId emptyCloud.nextId)
      (emptyCloud.nextId + 1 + c.works.length) c.recordings).filter
        (fun r => r.composer_id == mintCloudId emptyCloud.nextId) =
      pushedRecRows okPushWorld (mintCloudId emptyCloud.nextId)
        (emptyCloud.nextId + 1 + c.works.length) c.recordings := by
    apply List.filter_eq_self.mpr
    intro r hr
    have hcid := pushedRecRows_composer_id okPushWorld
      (mintCloudId emptyCloud.nextId) (emptyCloud.nextId + 1 + c.works.length)
      c.recordings r hr
    rw [hcid]
    simp
  have hfetch : getCloudComposer okPullWorld
      (pushComposerToCloud okPushWorld c emptyCloud).state
      (mintCloudId emptyCloud.nextId) =
      Except.ok
        { id := mintCloudId emptyCloud.nextId, name := c.name, period := c.period,
          image := (tryUploadAvatar okPushWorld c).2,
          works :=
            (pushedWorkRows okPushWorld (mintCloudId emptyCloud.nextId)
              (emptyCloud.nextId + 1) c.works).map
              (fun r =>
                { id := r.id, composerId := r.composer_id, title := r.title,
                  edition := r.edition, year := r.year, fileUrl := r.file_url }),
          recordings :=
            (pushedRecRows okPushWorld (mintCloudId emptyCloud.nextId)
              (emptyCloud.nextId + 1 + c.works.length) c.recordings).map
              (fun r =>
                { id := r.id, composerId := r.composer_id, title := r.title,
                  performer := r.performer, duration := r.duration,
                  year := r.year, fileUrl := r.file_url }) } := by
    rw [hstate]
    unfold getCloudComposer
    simp only [show emptyCloud.composers = [] from rfl,
      show emptyCloud.works = [] from rfl,
      show emptyCloud.recordings = [] from rfl, List.nil_append]
    rw [hfilterW, hfilterR]
    simp [okPullWorld]
  rw [hnew]
  obtain ⟨p1, p2, p3, p4, p5, p6, p7, p8⟩ := pullComposerToLocal_ok okPullWorld
    (mintCloudId emptyCloud.nextId)
    (pushComposerToCloud okPushWorld c emptyCloud).state emptyLocal _ hfetch
    (fun _ _ => rfl) (fun _ _ => rfl)
  refine ⟨?_, p1, ?_, ?_, ?_⟩
  · rw [pushComposerToCloud_err]
    rfl
  · rw [p6, show emptyLocal.composers = ([] : List LocalComposerRow) from rfl]
    simp
  · rw [p7, show emptyLocal.works = ([] : List LocalWorkRow) from rfl]
    simp only [List.map_nil, List.nil_append, List.map_map]
    exact (List.map_congr_left (fun a _ => rfl)).trans
      (pushedWorkRows_map_tey okPushWorld (mintCloudId emptyCloud.nextId)
        (emptyCloud.nextId + 1) c.works)
  · rw [p8, show emptyLocal.recordings = ([] : List LocalRecordingRow) from rfl]
    simp only [List.map_nil, List.nil_append, List.map_map]
    exact (List.map_congr_left (fun a _ => rfl)).trans
      (pushedRecRows_map_tpdy okPushWorld (mintCloudId emptyCloud.nextId)
        (emptyCloud.nextId + 1 + c.works.length) c.recordings)

/-- Claim C7 (corrected): each update re-reads and returns the row from the
store after the write (first conjunct of each part, true by construction of
the source's trailing `SELECT`), and leaves rows with other ids untouched —
but updates do NOT apply exactly the fields present in the partial input:
`dbUpdateWork` guards every field, and `dbUpdateRecording` guards `fileUrl`,
with a TRUTHINESS test (`if (work.title) …`), so a present-but-empty field is
silently dropped (`truthyApply`); only `dbUpdateComposer` and the spread
fields of `dbUpdateRecording` apply every present field (`presentApply`). -/
theorem db_update_rereads_and_applies_truthy :
    (∀ (st : LocalState) (id : String) (p : WorkPatch) (old : LocalWorkRow),
      st.works.find? (fun r => r.id == id) = some old →
      (dbUpdateWork st id p).2 =
        ((dbUpdateWork st id p).1).works.find? (fun r => r.id == id) ∧
      (dbUpdateWork st id p).2 = some
        { id := old.id, composer_id := old.composer_id,
          title := truthyApply p.title old.title,
          edition := truthyApply p.edition old.edition,
          year := truthyApply p.year old.year,
          file_url := truthyApply p.fileUrl old.file_url } ∧
      (∀ r ∈ st.works, (r.id == id) = false →
        r ∈ ((dbUpdateWork st id p).1).works)) ∧
    (∀ (st : LocalState) (id : String) (p : ComposerPatch) (old : LocalComposerRow),
      st.composers.find? (fun r => r.id == id) = some old →
      (dbUpdateComposer st id p).2 =
        ((dbUpdateComposer st id p).1).composers.find? (fun r => r.id == id) ∧
      (dbUpdateComposer st id p).2 = some
        { id := old.id,
          name := presentApply p.name old.name,
          period := presentApply p.period old.period,
          image := presentApply p.image old.image } ∧
      (∀ r ∈ st.composers, (r.id == id) = false →
        r ∈ ((dbUpdateComposer st id p).1).composers)) ∧
    (∀ (st : LocalState) (id : String) (p : RecordingPatch)
        (old : LocalRecordingRow),
      st.recordings.find? (fun r => r.id == id) = some old →
      (dbUpdateRecording st id p).2 =
        ((dbUpdateRecording st id p).1).recordings.find? (fun r => r.id == id) ∧
      (dbUpdateRecording st id p).2 = some
        { id := old.id, composer_id := old.composer_id,
          title := presentApply p.title old.title,
          performer := presentApply p.performer old.performer,
          duration := presentApply p.duration old.duration,
          year := presentApply p.year old.year,
          file_url := truthyApply p.fileUrl old.file_url } ∧
      (∀ r ∈ st.recordings, (r.id == id) = false →
        r ∈ ((dbUpdateRecording st id p).1).recordings)) := by
  refine ⟨?_, ?_, ?_⟩
  · intro st id p old hfind
    refine ⟨rfl, ?_, ?_⟩
    · simp only [dbUpdateWork]
      rw [List.find?_map]
      have hcomp : ((fun r : LocalWorkRow => r.id == id) ∘ (fun r =>
          if r.id == id then
            { r with
              title := truthyApply p.title r.title,
              edition := truthyApply p.edition r.edition,
              year := truthyApply p.year r.year,
              file_url := truthyApply p.fileUrl r.file_url }
          else r)) = (fun r => r.id == id) := by
        funext r
        by_cases h : (r.id == id) = true
        · simp [Function.comp, h]
        · simp [Function.comp, h]
      rw [hcomp, hfind]
      have hpa := List.find?_some hfind
      simp only at hpa
      have heq : old.id = id := by simpa using hpa
      simp [heq]
    · intro r hr hne
      simp only [dbUpdateWork]
      exact List.mem_map.mpr ⟨r, hr, by simp [hne]⟩
  · intro st id p old hfind
    refine ⟨rfl, ?_, ?_⟩
    · simp only [dbUpdateComposer]
      rw [List.find?_map]
      have hcomp : ((fun r : LocalComposerRow => r.id == id) ∘ (fun r =>
          if r.id == id then
            { r with
              name := presentApply p.name r.name,
              period := presentApply p.period r.period,
              image := presentApply p.image r.image }
          else r)) = (fun r => r.id == id) := by
        funext r
        by_cases h : (r.id == id) = true
        · simp [Function.comp, h]
        · simp [Function.comp, h]
      rw [hcomp, hfind]
      have hpa := List.find?_some hfind
      simp only at hpa
      have heq : old.id = id := by simpa using hpa
      simp [heq]
    · intro r hr hne
      simp only [dbUpdateComposer]
      exact List.mem_map.mpr ⟨r, hr, by simp [hne]⟩
  · intro st id p old hfind
    refine ⟨rfl, ?_, ?_⟩
    · simp only [dbUpdateRecording]
      rw [List.find?_map]
      have hcomp : ((fun r : LocalRecordingRow => r.id == id) ∘ (fun r =>
          if r.id == id then
            { r with
              title := presentApply p.title r.title,
              performer := presentApply p.performer r.performer,
              duration := presentApply p.duration r.duration,
              year := presentApply p.year r.year,
              file_url := truthyApply p.fileUrl r.file_url }
          else r)) = (fun r => r.id == id) := by
        funext r
        by_cases h : (r.id == id) = true
        · simp [Function.comp, h]
        · simp [Function.comp, h]
      rw [hcomp, hfind]
      have hpa := List.find?_some hfind
      simp only at hpa
      have heq : old.id = id := by simpa using hpa
      simp [heq]
    · intro r hr hne
      simp only [dbUpdateRecording]
      exact List.mem_map.mpr ⟨r, hr, by simp [hne]⟩

/-- Witness for C7: updating the stored work `w1` with the non-empty title
`"Ballade"` applies it, re-reads, and leaves every other column unchanged. -/
theorem db_update_rereads_witness :
    (dbUpdateWork cxUpdState "w1" { title := some "Ballade" }).2 = some
      { id := "w1", composer_id := "c1", title := "Ballade", edition := "First",
        year := "1900", file_url := "f.pdf" } :=
  ((db_update_rereads_and_applies_truthy.1 cxUpdState "w1"
    { title := some "Ballade" } cxWorkRow (by rfl)).2.1)

/-- Counterexample for C7: the partial input `{ edition: "" }` PRESENTS the
field `edition`, yet `dbUpdateWork` leaves the stored `"First"` unchanged
(`if (work.edition)` is false for the empty string) — refuting "applies
exactly the fields present in the partial input". -/
theorem db_update_work_drops_present_empty_field_cx :
    ({ edition := some "" } : WorkPatch).edition = some "" ∧
    ((dbUpdateWork cxUpdState "w1" { edition := some "" }).2).map
        (fun r => r.edition) = some "First" :=
  ⟨rfl, rfl⟩

end SML

